import Mathlib

/-!
# RunThatCode: the `CodeEditor` class of `src/app.js`

A shallow embedding of the editor's validators, document composer, persistence,
debounce timer and error relay, followed by theorems about them.

JavaScript strings are modelled as lists of characters.  The browser objects the
code talks to (the tab buttons, the two frames, the error panel, `localStorage`,
the timer queue) are fields of an explicit `State`; the services whose code is
not part of the repository (`new Function`, `DOMParser`, `JSON`) are fields of
an `Env` record.
-/

namespace RunThatCode

/-- A JavaScript string. -/
abbrev Str := List Char

/-! ## String primitives -/

/-- The characters `String.prototype.trim` removes: ECMAScript WhiteSpace and
LineTerminator. -/
def isWhiteSpace (c : Char) : Bool :=
  c = '\t' || c = '\n' || c = '\x0b' || c = '\x0c' || c = '\r' || c = ' ' ||
  c = '\u00a0' || c = '\u1680' || (0x2000 ≤ c.toNat && c.toNat ≤ 0x200a) ||
  c = '\u2028' || c = '\u2029' || c = '\u202f' || c = '\u205f' || c = '\u3000' ||
  c = '\ufeff'

/-- `s.trim()`. -/
def trim (s : Str) : Str :=
  (s.dropWhile isWhiteSpace).rdropWhile isWhiteSpace

/-- `s.includes(pat)`. -/
def includes (s pat : Str) : Bool :=
  pat.isPrefixOf s || match s with
    | [] => false
    | _ :: cs => includes cs pat

/-- `s.startsWith(pat)`. -/
def startsWith (s pat : Str) : Bool := pat.isPrefixOf s

/-- `s.endsWith(pat)`. -/
def endsWith (s pat : Str) : Bool := pat.isSuffixOf s

/-- `s.split(sep)` for a one-character separator. -/
def split (sep : Char) : Str → List Str
  | [] => [[]]
  | c :: cs =>
    if c = sep then [] :: split sep cs
    else match split sep cs with
      | [] => [[c]]
      | p :: ps => (c :: p) :: ps

/-- `(s.match(/c/g) || []).length` for a one-character pattern. -/
def countChar (c : Char) (s : Str) : Nat := s.count c

/-- `xs.join(sep)`. -/
def join (sep : Str) (xs : List Str) : Str := List.intercalate sep xs

/-- The decimal text a template literal produces for a non-negative integer. -/
def numText (n : Nat) : Str := Nat.toDigits 10 n

/-- `s.toLowerCase()`, on the ASCII texts the validator applies it to. -/
def toLowerCase (s : Str) : Str := s.map Char.toLower

/-- The regular-expression class `\w`. -/
def isWordChar (c : Char) : Bool := c.isAlphanum || c = '_'

/-- `[...new Set(xs)]`: the distinct values in order of first insertion. -/
def newSet (xs : List Str) : List Str :=
  xs.foldl (fun acc x => if x ∈ acc then acc else acc ++ [x]) []

/-- `xs.indexOf(x)`, with `xs.length` standing for "not found". -/
def indexOf (xs : List Str) (x : Str) : Nat := xs.indexOf x

/-! ## Regular-expression matching -/

/-- `s.match(re)` with the `g` flag: try the pattern at each position from left
to right; after a match, resume right behind it.  `skip` counts the characters
of the previous match still to be stepped over. -/
def matchAll {α : Type} (matchAt : Str → Option (Nat × α)) : Nat → Str → List α
  | _, [] => []
  | skip + 1, _ :: cs => matchAll matchAt skip cs
  | 0, c :: cs =>
    match matchAt (c :: cs) with
    | some (len, m) => m :: matchAll matchAt (len - 1) cs
    | none => matchAll matchAt 0 cs

/-- `s.match(re)` without the `g` flag: the leftmost match, if any. -/
def firstMatch {α : Type} (matchAt : Str → Option α) : Str → Option α
  | [] => none
  | c :: cs =>
    match matchAt (c :: cs) with
    | some m => some m
    | none => firstMatch matchAt cs

/-- The pattern `<[^/][^>]*>` tried at the start of `s`: the length and text of the match. -/
def openTagAt : Str → Option (Nat × Str)
  | '<' :: c :: rest =>
    if c = '/' then none
    else match rest.dropWhile (fun x => x != '>') with
      | [] => none
      | _ :: _ =>
        let tag := '<' :: c :: (rest.takeWhile (fun x => x != '>') ++ ['>'])
        some (tag.length, tag)
  | _ => none

/-- `html.match(/<[^/][^>]*>/g) || []`. -/
def openTags (html : Str) : List Str := matchAll openTagAt 0 html

/-- The pattern `<(\w+)` tried at the start of `s`: capture group 1. -/
def tagNameAt : Str → Option Str
  | '<' :: rest =>
    match rest.takeWhile isWordChar with
    | [] => none
    | w :: ws => some (w :: ws)
  | _ => none

/-- `tag.match(/<(\w+)/)?.[1]?.toLowerCase()`. -/
def tagName (tag : Str) : Option Str := (firstMatch tagNameAt tag).map toLowerCase

/-- The class `["']`. -/
def isQuote (c : Char) : Bool := c = '\x22' || c = '\x27'

/-- The pattern `id=["']([^"']+)["']` tried at the start of `s`: the length of
the match, with its text and capture group 1. -/
def idAt : Str → Option (Nat × Str × Str)
  | 'i' :: 'd' :: '=' :: q :: rest =>
    if isQuote q then
      match rest.takeWhile (fun x => !isQuote x), rest.dropWhile (fun x => !isQuote x) with
      | v :: vs, q2 :: _ =>
        let m := 'i' :: 'd' :: '=' :: q :: ((v :: vs) ++ [q2])
        some (m.length, m, v :: vs)
      | _, _ => none
    else none
  | _ => none

/-- `html.match(/id=["']([^"']+)["']/g)`, as the list of matched texts (empty
for `null`). -/
def idMatches (html : Str) : List Str :=
  matchAll (fun s => (idAt s).map (fun r => (r.1, r.2.1))) 0 html

/-- `match.match(/id=["']([^"']+)["']/)[1]`; every element of `idMatches`
matches, so the lookup cannot fail there. -/
def idValue (m : Str) : Str :=
  ((firstMatch (fun s => (idAt s).map (fun r => r.2.2)) m)).getD []

/-- The pattern `\/\*[\s\S]*?\*\/` tried at the start of `s`: the length of the
match, which runs to the first `*/` behind the opening `/*`. -/
def commentEnd : Str → Option Nat
  | [] => none
  | c :: cs =>
    match c, cs with
    | '*', '/' :: _ => some 2
    | _, _ => (commentEnd cs).map (fun n => n + 1)

/-- The comment pattern tried at the start of `s`. -/
def commentAt : Str → Option Nat
  | '/' :: '*' :: rest => (commentEnd rest).map (fun n => n + 2)
  | _ => none

/-- `s.replace(/\/\*[\s\S]*?\*\//g, '')`. -/
def stripComments : Nat → Str → Str
  | _, [] => []
  | skip + 1, _ :: cs => stripComments skip cs
  | 0, c :: cs =>
    match commentAt (c :: cs) with
    | some len => stripComments (len - 1) cs
    | none => c :: stripComments 0 cs

/-! ## The validators' reports -/

/-- The fixed list `selfClosingTags` of `validateHTML`. -/
def selfClosingTags : List Str :=
  ["img", "br", "hr", "input", "meta", "link", "area", "base", "col", "embed", "source",
   "track", "wbr"].map String.toList

/-- The messages pushed by the root-tag check of `validateHTML`. -/
def rootTagErrors (html : Str) : List Str :=
  if includes html "<!DOCTYPE html>".toList || includes html "<html>".toList then
    (if !includes html "</html>".toList && includes html "<html>".toList
      then ["Missing closing </html> tag".toList] else []) ++
    (if !includes html "</head>".toList && includes html "<head>".toList
      then ["Missing closing </head> tag".toList] else []) ++
    (if !includes html "</body>".toList && includes html "<body>".toList
      then ["Missing closing </body> tag".toList] else [])
  else []

/-- The message the `openTags.forEach` callback pushes for one tag, if any. -/
def openTagError (html tag : Str) : Option Str :=
  match tagName tag with
  | none => none
  | some name =>
    if name ≠ [] && !selfClosingTags.contains name && !endsWith tag "/>".toList then
      let closeTag := "</".toList ++ name ++ ">".toList
      if !includes html closeTag then
        some ("Missing closing tag for <".toList ++ name ++ ">".toList)
      else none
    else none

/-- The messages pushed by the open-tag scan of `validateHTML`. -/
def openTagErrors (html : Str) : List Str :=
  (openTags html).filterMap (openTagError html)

/-- The messages pushed by the empty-attribute checks of `validateHTML`. -/
def emptyAttrErrors (html : Str) : List Str :=
  (if includes html "class=\"\"".toList || includes html "class=''".toList
    then ["Empty class attribute found".toList] else []) ++
  (if includes html "id=\"\"".toList || includes html "id=''".toList
    then ["Empty id attribute found".toList] else [])

/-- The list `ids` of `validateHTML`: the captured value of every id match. -/
def ids (html : Str) : List Str := (idMatches html).map idValue

/-- `ids.filter((id, index) => ids.indexOf(id) !== index)`. -/
def duplicateIds (ids : List Str) : List Str :=
  (ids.enum.filter (fun p => indexOf ids p.2 != p.1)).map Prod.snd

/-- The message pushed by the duplicate-id check of `validateHTML`. -/
def duplicateIdErrors (html : Str) : List Str :=
  match idMatches html with
  | [] => []
  | m :: ms =>
    let ids := (m :: ms).map idValue
    if (duplicateIds ids).length > 0 then
      ["Duplicate ID(s) found: ".toList ++ join ", ".toList (newSet (duplicateIds ids))]
    else []

/-- The array `errors` of `validateHTML` when the checks are done. -/
def htmlErrors (html : Str) : List Str :=
  rootTagErrors html ++ openTagErrors html ++ emptyAttrErrors html ++ duplicateIdErrors html

/-- The filter applied to the trimmed lines of a declaration block. -/
def keepLine (line : Str) : Bool :=
  line ≠ [] && !startsWith line "/*".toList && !startsWith line "*".toList &&
    !endsWith line "*/".toList

/-- The test of the `lines.forEach` callback of `validateCSS`. -/
def lacksSemicolon (line : Str) : Bool :=
  includes line ":".toList && !endsWith line ";".toList && !endsWith line "\x7b".toList &&
    (split ':' line).length == 2

/-- The messages the `rules.forEach` callback of `validateCSS` pushes for one rule. -/
def ruleErrors (rule : Str) : List Str :=
  match split '{' rule with
  | _ :: declarations :: _ =>
    if declarations ≠ [] then
      let cleanDeclarations := stripComments 0 declarations
      let lines := ((split '\n' cleanDeclarations).map trim).filter keepLine
      (lines.filter lacksSemicolon).map
        (fun line => "Missing semicolon in declaration: \"".toList ++ line ++ "\"".toList)
    else []
  | _ => []

/-- The array `rules` of `validateCSS`. -/
def cssRules (css : Str) : List Str :=
  (split '}' css).filter (fun rule => trim rule ≠ [] && includes rule "\x7b".toList)

/-- The array `errors` of `validateCSS` when the checks are done, for a text
that passed the blank test. -/
def cssErrors (css : Str) : List Str :=
  let errors : List Str := []
  let openBraces := countChar '{' css
  let closeBraces := countChar '}' css
  let errors :=
    if openBraces ≠ closeBraces then
      errors ++ ["Mismatched braces: ".toList ++ numText openBraces ++ " opening, ".toList ++
        numText closeBraces ++ " closing".toList]
    else errors
  errors ++ (cssRules css).flatMap ruleErrors

/-- The array `errors` of `validateJavaScript` when the checks are done, for a
text that passed the blank test.  `compile js` is `none` when `new Function(js)`
returns and `some message` when it throws. -/
def jsErrors (compile : Str → Option Str) (js : Str) : List Str :=
  let errors : List Str := []
  let errors :=
    match compile js with
    | some message => errors ++ ["Syntax Error: ".toList ++ message]
    | none => errors
  let openParens := countChar '(' js
  let closeParens := countChar ')' js
  let openBrackets := countChar '[' js
  let closeBrackets := countChar ']' js
  let openBraces := countChar '{' js
  let closeBraces := countChar '}' js
  let errors :=
    if openParens ≠ closeParens then
      errors ++ ["Mismatched parentheses: ".toList ++ numText openParens ++
        " opening, ".toList ++ numText closeParens ++ " closing".toList]
    else errors
  let errors :=
    if openBrackets ≠ closeBrackets then
      errors ++ ["Mismatched brackets: ".toList ++ numText openBrackets ++
        " opening, ".toList ++ numText closeBrackets ++ " closing".toList]
    else errors
  let errors :=
    if openBraces ≠ closeBraces then
      errors ++ ["Mismatched braces: ".toList ++ numText openBraces ++
        " opening, ".toList ++ numText closeBraces ++ " closing".toList]
    else errors
  errors

/-! ## Editor state -/

/-- The three fragment kinds, the keys of `this.editors`. -/
inductive Kind where
  | html
  | css
  | js
  deriving DecidableEq, Repr

/-- A textarea: its current `value` and its `defaultValue`. -/
structure Editor where
  value : Str
  defaultValue : Str
  deriving DecidableEq, Repr

/-- The record `this.editors`. -/
structure Editors where
  html : Editor
  css : Editor
  js : Editor
  deriving DecidableEq, Repr

/-- `this.editors[type]`. -/
def Editors.get (e : Editors) : Kind → Editor
  | .html => e.html
  | .css => e.css
  | .js => e.js

/-- The editors after `this.editors[type].value = text`. -/
def Editors.setValue (e : Editors) (k : Kind) (text : Str) : Editors :=
  match k with
  | .html => { e with html := { e.html with value := text } }
  | .css => { e with css := { e.css with value := text } }
  | .js => { e with js := { e.js with value := text } }

/-- The three tab buttons, as found by `document.querySelector('[data-tab=...]')`:
`none` when the page has no such button, otherwise whether the button carries the
class `has-error`.  The page itself is not part of the repository; as in
`setupTabSwitching` and `switchTab`, the elements with a `data-tab` attribute are
taken to be the elements of class `tab-button`. -/
structure Tabs where
  html : Option Bool
  css : Option Bool
  js : Option Bool
  deriving DecidableEq, Repr

/-- The tab button of a kind. -/
def Tabs.get (t : Tabs) : Kind → Option Bool
  | .html => t.html
  | .css => t.css
  | .js => t.js

/-- The tab buttons after one of them was replaced. -/
def Tabs.set (t : Tabs) (k : Kind) (b : Option Bool) : Tabs :=
  match k with
  | .html => { t with html := b }
  | .css => { t with css := b }
  | .js => { t with js := b }

/-- The value of `style.display` of a frame. -/
inductive Display where
  | initial
  | none
  | block
  deriving DecidableEq, Repr

/-- A notification element appended to the page by `showNotification`. -/
structure Notification where
  message : Str
  type : Str
  duration : Nat
  deriving DecidableEq, Repr

/-- The callbacks the editor hands to `setTimeout` that act on the modelled state. -/
inductive TimerAction where
  | saveToStorage
  | validateCode (type : Kind)
  | hideError
  | reportSuccess
  deriving DecidableEq, Repr

/-- A pending timeout. -/
structure Timer where
  id : Nat
  due : Nat
  action : TimerAction
  deriving DecidableEq, Repr

/-- The editor object together with the parts of the page it reads and writes.
`previewSrc` is the document behind the blob URL of the preview frame,
`notifications` the notification elements appended so far, `storage` the value
under the key `runthatcode-editor`, `timers` the pending timeouts at the clock
value `now`.  The 2000 ms interval of `setupAutoSave` does not go through the
debounce slot and is not in `timers`; timeouts that only restyle or remove an
element are left out. -/
structure State where
  editors : Editors
  previewDisplay : Display
  demoDisplay : Display
  previewSrc : Option Str
  errorMessage : Str
  errorShown : Bool
  tabs : Tabs
  hasErrors : Bool
  notifications : List Notification
  storage : Option Str
  debounceTimer : Option Nat
  timers : List Timer
  nextTimerId : Nat
  now : Nat
  deriving DecidableEq, Repr

/-- The object `code` written by `saveToStorage`. -/
structure Snapshot where
  html : Str
  css : Str
  js : Str
  deriving DecidableEq, Repr

/-- A property of the object read back by `JSON.parse`, as `loadFromStorage`
uses it: a falsy value that is no string (absent, `null`, `0`, `false`), a
string, or some other truthy value, on which `.trim()` throws. -/
inductive Field where
  | falsy
  | text (s : Str)
  | other
  deriving DecidableEq, Repr

/-- The object `code` read by `loadFromStorage`. -/
structure ParsedCode where
  html : Field
  css : Field
  js : Field
  deriving DecidableEq, Repr

/-- A child element of the parsed document's head. -/
structure HeadChild where
  outerHTML : Str
  isCharsetMeta : Bool
  isViewportMeta : Bool
  isTitle : Bool
  deriving DecidableEq, Repr

/-- The document `DOMParser.parseFromString` returns, as `createFullHTML` uses
it: `doc.body.innerHTML` and `doc.head.children`, each `none` when the element
is missing. -/
structure ParsedDoc where
  body : Option Str
  head : Option (List HeadChild)
  deriving DecidableEq, Repr

/-- A JavaScript number, the type of `lineno`: `NaN`, an infinity, negative
zero, or a finite double `mantissa * 2 ^ exponent`. -/
inductive JsNumber where
  | nan
  | infinity (negative : Bool)
  | negativeZero
  | finite (mantissa : Int) (exponent : Int)
  deriving DecidableEq, Repr

/-- Whether a number is falsy, as `||` tests it: `NaN`, `0` and `-0` are. -/
def JsNumber.falsy : JsNumber → Bool
  | .nan => true
  | .infinity _ => false
  | .negativeZero => true
  | .finite mantissa _ => mantissa == 0

/-- The browser services the editor calls whose code is outside the repository.
`compile js` is `some message` when `new Function(js)` throws; `parse text` is
`none` when `JSON.parse(text)` throws or returns `null`, on which the first
property read throws; `quotaExceeded text` tells whether `localStorage.setItem`
throws on `text`; `numberToString n` is the text a template literal prints for
the number `n`. -/
structure Env where
  compile : Str → Option Str
  parseFromString : Str → ParsedDoc
  stringify : Snapshot → Str
  parse : Str → Option ParsedCode
  quotaExceeded : Str → Bool
  numberToString : JsNumber → Str

/-! ## The composed document -/

/-- Template text before the css slot (source lines 556-564). -/
def templateHead : Str :=
  "\n".toList ++
  "<!DOCTYPE html>\n".toList ++
  "<html lang=\"en\">\n".toList ++
  "<head>\n".toList ++
  "    <meta charset=\"UTF-8\">\n".toList ++
  "    <meta name=\"viewport\" content=\"width=device-width, initial-scale=1.0\">\n".toList ++
  "    <title>Preview</title>\n".toList ++
  "    <style>\n".toList ++
  "        ".toList

/-- Template text between the css slot and the headContent slot (lines 564-566). -/
def templateAfterCss : Str :=
  "\n".toList ++
  "    </style>\n".toList ++
  "    ".toList

/-- Template text between the headContent slot and the bodyContent slot (lines 566-569). -/
def templateAfterHead : Str :=
  "\n".toList ++
  "</head>\n".toList ++
  "<body>\n".toList ++
  "    ".toList

/-- Template text between the bodyContent slot and the js slot (lines 569-590): the error
handler, the anchor-click interceptor and the opening of the try block. -/
def templateScript : Str :=
  "\n".toList ++
  "    <script>\n".toList ++
  "        window.addEventListener('error', function(e) \x7b\n".toList ++
  "            parent.postMessage(\x7b\n".toList ++
  "                type: 'error',\n".toList ++
  "                message: e.message,\n".toList ++
  "                filename: e.filename,\n".toList ++
  "                lineno: e.lineno,\n".toList ++
  "                colno: e.colno\n".toList ++
  "            \x7d, '*');\n".toList ++
  "        \x7d);\n".toList ++
  "        \n".toList ++
  "        // Enable link navigation in preview\n".toList ++
  "        document.addEventListener('click', function(e) \x7b\n".toList ++
  "            if (e.target.tagName === 'A' && e.target.href) \x7b\n".toList ++
  "                e.preventDefault();\n".toList ++
  "                window.open(e.target.href, '_blank');\n".toList ++
  "            \x7d\n".toList ++
  "        \x7d);\n".toList ++
  "        \n".toList ++
  "        try \x7b\n".toList ++
  "            ".toList

/-- Template text after the js slot (lines 590-600): the catch block that posts the error,
and the closing tags. -/
def templateTail : Str :=
  "\n".toList ++
  "        \x7d catch (error) \x7b\n".toList ++
  "            parent.postMessage(\x7b\n".toList ++
  "                type: 'error',\n".toList ++
  "                message: error.message,\n".toList ++
  "                stack: error.stack\n".toList ++
  "            \x7d, '*');\n".toList ++
  "        \x7d\n".toList ++
  "    </script>\n".toList ++
  "</body>\n".toList ++
  "</html>".toList

/-- `createFullHTML(html, css, js)`. -/
def createFullHTML (env : Env) (html css js : Str) : Str :=
  let parts : Str × Str :=
    if includes html "<!DOCTYPE html>".toList || includes html "<html>".toList then
      let doc := env.parseFromString html
      let bodyContent := match doc.body with
        | some inner => inner
        | none => html
      let headContent := match doc.head with
        | some children =>
          join "\n".toList
            ((children.filter (fun el =>
              !el.isCharsetMeta && !el.isViewportMeta && !el.isTitle)).map HeadChild.outerHTML)
        | none => []
      (bodyContent, headContent)
    else (html, [])
  templateHead ++ css ++ templateAfterCss ++ parts.2 ++ templateAfterHead ++ parts.1 ++
    templateScript ++ js ++ templateTail

/-! ## Methods of `CodeEditor` -/

/-- `showNotification(message, type, duration)`: append the notification element. -/
def showNotification (st : State) (message type : Str) (duration : Nat) : State :=
  { st with notifications := st.notifications ++ [⟨message, type, duration⟩] }

/-- `setTimeout(action, delay)`: the new state and the timer's id. -/
def setTimeout (st : State) (action : TimerAction) (delay : Nat) : State × Nat :=
  ({ st with timers := st.timers ++ [⟨st.nextTimerId, st.now + delay, action⟩],
             nextTimerId := st.nextTimerId + 1 }, st.nextTimerId)

/-- `clearTimeout(id)`; `none` is `undefined`. -/
def clearTimeout (st : State) (id : Option Nat) : State :=
  match id with
  | none => st
  | some i => { st with timers := st.timers.filter (fun t => t.id != i) }

/-- `debounce(func, delay)`. -/
def debounce (st : State) (func : TimerAction) (delay : Nat) : State :=
  let st1 := clearTimeout st st.debounceTimer
  let r := setTimeout st1 func delay
  { r.1 with debounceTimer := some r.2 }

/-- `showDemoPreview()`. -/
def showDemoPreview (st : State) : State :=
  { st with previewDisplay := .none, demoDisplay := .block }

/-- `showCodePreview()`. -/
def showCodePreview (st : State) : State :=
  { st with previewDisplay := .block, demoDisplay := .none }

/-- `updateGlobalErrorState()`. -/
def updateGlobalErrorState (st : State) : State :=
  { st with hasErrors :=
      decide (([st.tabs.html, st.tabs.css, st.tabs.js].filter (fun t => t == some true)).length > 0) }

/-- `updateTabErrorIndicator(tabType, hasError)`. -/
def updateTabErrorIndicator (st : State) (tabType : Kind) (hasError : Bool) : State :=
  let st1 := match st.tabs.get tabType with
    | some _ => { st with tabs := st.tabs.set tabType (some hasError) }
    | none => st
  updateGlobalErrorState st1

/-- `clearErrorIndicators()`. -/
def clearErrorIndicators (st : State) : State :=
  { st with
    tabs := ⟨st.tabs.html.map (fun _ => false), st.tabs.css.map (fun _ => false),
             st.tabs.js.map (fun _ => false)⟩,
    hasErrors := false }

/-- `showCodeError(type, errors)`. -/
def showCodeError (st : State) (type : Str) (errors : List Str) : State :=
  let errorTitle := type ++ " Issues Detected".toList
  let errorList := join "\n".toList ((errors.take 5).map (fun error => "• ".toList ++ error))
  let additionalErrors :=
    if errors.length > 5
    then "\n... and ".toList ++ numText (errors.length - 5) ++ " more issues".toList
    else []
  showNotification st (errorTitle ++ "\n".toList ++ errorList ++ additionalErrors)
    "warning".toList 8000

/-- `validateHTML(html)`. -/
def validateHTML (st : State) (html : Str) : State :=
  let errors := htmlErrors html
  if errors.length > 0 then
    updateTabErrorIndicator (showCodeError st "HTML".toList errors) .html true
  else updateTabErrorIndicator st .html false

/-- `validateCSS(css)`. -/
def validateCSS (st : State) (css : Str) : State :=
  if css = [] || trim css = [] then updateTabErrorIndicator st .css false
  else
    let errors := cssErrors css
    if errors.length > 0 then
      updateTabErrorIndicator (showCodeError st "CSS".toList errors) .css true
    else updateTabErrorIndicator st .css false

/-- `validateJavaScript(js)`. -/
def validateJavaScript (env : Env) (st : State) (js : Str) : State :=
  if js = [] || trim js = [] then updateTabErrorIndicator st .js false
  else
    let errors := jsErrors env.compile js
    if errors.length > 0 then
      updateTabErrorIndicator (showCodeError st "JavaScript".toList errors) .js true
    else updateTabErrorIndicator st .js false

/-- `validateCode(type)`. -/
def validateCode (env : Env) (st : State) (type : Kind) : State :=
  let code := trim (st.editors.get type).value
  if code = [] then updateTabErrorIndicator st type false
  else match type with
    | .html => validateHTML st code
    | .css => validateCSS st code
    | .js => validateJavaScript env st code

/-- `hideError()`. -/
def hideError (st : State) : State := { st with errorShown := false }

/-- `showError(message, details)`. -/
def showError (st : State) (message details : Str) : State :=
  let st1 := { st with errorMessage := if details ≠ [] then details else message,
                       errorShown := true }
  (setTimeout st1 .hideError 10000).1

/-- `updatePreview(html)`: the preview frame is pointed at a blob holding `html`. -/
def updatePreview (st : State) (html : Str) : State :=
  { st with previewSrc := some html }

/-- `runCode()`. -/
def runCode (env : Env) (st : State) : State :=
  let htmlCode := st.editors.html.value
  let cssCode := st.editors.css.value
  let jsCode := st.editors.js.value
  let isEmpty := trim htmlCode = [] && trim cssCode = [] && trim jsCode = []
  if isEmpty then
    showNotification (showDemoPreview st) "Write some code to see the preview! ✨".toList
      "info".toList 3000
  else
    let st1 := showCodePreview st
    let st2 := hideError st1
    let st3 := clearErrorIndicators st2
    let st4 := validateCode env st3 .html
    let st5 := validateCode env st4 .css
    let st6 := validateCode env st5 .js
    let fullHTML := createFullHTML env htmlCode cssCode jsCode
    let st7 := updatePreview st6 fullHTML
    (setTimeout st7 .reportSuccess 100).1

/-- `saveToStorage()`. -/
def saveToStorage (env : Env) (st : State) : State :=
  let code : Snapshot :=
    ⟨st.editors.html.value, st.editors.css.value, st.editors.js.value⟩
  let text := env.stringify code
  if env.quotaExceeded text then st else { st with storage := some text }

/-- One of the three guarded assignments of `loadFromStorage`: `none` when the
guard throws. -/
def loadField (saved : Field) (editor : Editor) : Option Editor :=
  match saved with
  | .falsy => some editor
  | .other => none
  | .text s =>
    if s ≠ [] && trim s ≠ [] &&
        (editor.value = editor.defaultValue || trim editor.value = []) then
      some { editor with value := s }
    else some editor

/-- `loadFromStorage()`. -/
def loadFromStorage (env : Env) (st : State) : State :=
  match st.storage with
  | none => st
  | some saved =>
    if saved = [] then st
    else match env.parse saved with
      | none => st
      | some code =>
        match loadField code.html st.editors.html with
        | none => st
        | some h =>
          let st1 := { st with editors := { st.editors with html := h } }
          match loadField code.css st1.editors.css with
          | none => st1
          | some c =>
            let st2 := { st1 with editors := { st1.editors with css := c } }
            match loadField code.js st2.editors.js with
            | none => st2
            | some j => { st2 with editors := { st2.editors with js := j } }

/-- `clearCode()`. -/
def clearCode (env : Env) (st : State) : State :=
  let st1 := { st with editors :=
    ((st.editors.setValue .html []).setValue .css []).setValue .js [] }
  let st2 := showDemoPreview st1
  let st3 := clearErrorIndicators st2
  let st4 := hideError st3
  let st5 := showNotification st4 "Code cleared! ✨".toList "info".toList 3000
  saveToStorage env st5

/-- An `input` event on the editor of kind `type`, whose value is now `text`:
the listener registered by `setupAutoSave` runs first, then the one registered
by `setupCodeValidation` (`init` calls the two in that order). -/
def inputEvent (st : State) (type : Kind) (text : Str) : State :=
  let st0 := { st with editors := st.editors.setValue type text }
  let st1 := debounce st0 .saveToStorage 1000
  debounce st1 (.validateCode type) 1500

/-- The `data` of a message event, as the window listener reads it; `stack` and
`lineno` are `none` when the message carries none. -/
structure MessageData where
  type : Str
  message : Str
  stack : Option Str
  lineno : Option JsNumber
  deriving DecidableEq, Repr

/-- The text `errorText` the window listener builds. -/
def errorText (env : Env) (error : MessageData) : Str :=
  match error.stack with
  | some (c :: cs) => c :: cs
  | _ =>
    error.message ++ "\nAt line ".toList ++
      (match error.lineno with
        | some n => if n.falsy then "unknown".toList else env.numberToString n
        | none => "unknown".toList)

/-- The window `message` listener. -/
def onMessage (env : Env) (st : State) (data : MessageData) : State :=
  if data.type = "error".toList then
    let st1 := showError st data.message (errorText env data)
    showNotification st1 ("Runtime Error: ".toList ++ data.message) "error".toList 5000
  else st

/-! ## Definitions used to state the theorems -/

/-- The field of a snapshot that belongs to a kind. -/
def Snapshot.get (code : Snapshot) : Kind → Str
  | .html => code.html
  | .css => code.css
  | .js => code.js

/-- The snapshot `saveToStorage` builds from the editors. -/
def snapshotOf (st : State) : Snapshot :=
  ⟨st.editors.html.value, st.editors.css.value, st.editors.js.value⟩

/-- A serialisation standing in for `JSON.stringify` in sample environments:
the lengths of the first two fields in unary, each closed by `b`, then the
three fields. -/
def encodeSnapshot (code : Snapshot) : Str :=
  List.replicate code.html.length 'a' ++ 'b' ::
    (List.replicate code.css.length 'a' ++ 'b' :: (code.html ++ code.css ++ code.js))

/-- The inverse of `encodeSnapshot`, standing in for `JSON.parse`. -/
def decodeSnapshot (text : Str) : Option ParsedCode :=
  let n1 := (text.takeWhile (fun x => x == 'a')).length
  let rest1 := (text.dropWhile (fun x => x == 'a')).tail
  let n2 := (rest1.takeWhile (fun x => x == 'a')).length
  let rest2 := (rest1.dropWhile (fun x => x == 'a')).tail
  some ⟨.text (rest2.take n1), .text ((rest2.drop n1).take n2), .text (rest2.drop (n1 + n2))⟩

/-- A stand-in for the engine's number printing in sample environments: a safe
integer (exponent at least 0, absolute value below 2 ^ 53) prints in decimal, as
it does in JavaScript; the special values print by name; any other number is
not used in the instances and prints as `?`. -/
def sampleNumberText : JsNumber → Str
  | .nan => "NaN".toList
  | .infinity negative => if negative then "-Infinity".toList else "Infinity".toList
  | .negativeZero => "0".toList
  | .finite mantissa exponent =>
    if 0 ≤ exponent ∧ mantissa.natAbs * 2 ^ exponent.toNat < 2 ^ 53 then
      (if mantissa < 0 then "-".toList else []) ++
        numText (mantissa.natAbs * 2 ^ exponent.toNat)
    else "?".toList

/-- An environment in which nothing fails: every script compiles, the parser
finds neither body nor head, the store accepts every write and parsing inverts
serialisation. -/
def sampleEnv : Env :=
  ⟨fun _ => none, fun _ => ⟨none, none⟩, encodeSnapshot, decodeSnapshot, fun _ => false,
   sampleNumberText⟩

/-- The editor as the constructor leaves it once `init` has run, with the three
given texts typed in: all three tab buttons present and unflagged, the demo
frame showing, nothing stored, no timer pending. -/
def sampleState (html css js : Str) : State :=
  { editors := ⟨⟨html, []⟩, ⟨css, []⟩, ⟨js, []⟩⟩
    previewDisplay := .none
    demoDisplay := .block
    previewSrc := none
    errorMessage := []
    errorShown := false
    tabs := ⟨some false, some false, some false⟩
    hasErrors := false
    notifications := []
    storage := none
    debounceTimer := none
    timers := []
    nextTimerId := 1
    now := 0 }

/-- The test `isEmpty` of `runCode`: all three fragments are blank. -/
def allBlank (st : State) : Bool :=
  trim st.editors.html.value = [] && trim st.editors.css.value = [] &&
    trim st.editors.js.value = []

/-- The state `runCode` returns on its blank path. -/
def runCodeDemo (st : State) : State :=
  showNotification (showDemoPreview st) "Write some code to see the preview! ✨".toList
    "info".toList 3000

/-- The state `runCode` returns on its other path. -/
def runCodeLoad (env : Env) (st : State) : State :=
  (setTimeout
    (updatePreview
      (validateCode env (validateCode env (validateCode env
        (clearErrorIndicators (hideError (showCodePreview st))) .html) .css) .js)
      (createFullHTML env st.editors.html.value st.editors.css.value st.editors.js.value))
    .reportSuccess 100).1


/-- Whether a message of a report is a brace-mismatch error. -/
def isBraceMismatch (e : Str) : Bool := startsWith e "Mismatched braces: ".toList

/-- The text of a count-mismatch error: what was counted and both counts. -/
def mismatchMessage (what : Str) (opening closing : Nat) : Str :=
  "Mismatched ".toList ++ what ++ ": ".toList ++ numText opening ++ " opening, ".toList ++
    numText closing ++ " closing".toList

/-- An environment in which `new Function` rejects every script with the given
message. -/
def failingEnv (message : Str) : Env :=
  ⟨fun _ => some message, fun _ => ⟨none, none⟩, encodeSnapshot, decodeSnapshot,
   fun _ => false, sampleNumberText⟩

/-- The panel text as the specification words it: the stack when one is present
and non-empty, otherwise the message, a newline and `At line ` followed by the
line number, or by `unknown` when the message carries no line number. -/
def specErrorText (env : Env) (error : MessageData) : Str :=
  match error.stack with
  | some (c :: cs) => c :: cs
  | _ =>
    error.message ++ "\nAt line ".toList ++
      (match error.lineno with
        | some n => env.numberToString n
        | none => "unknown".toList)

/-- The panel text as amended: as `specErrorText`, except that a line number
that is `0`, `-0` or `NaN` is shown as `unknown` too. -/
def amendedErrorText (env : Env) (error : MessageData) : Str :=
  match error.stack with
  | some (c :: cs) => c :: cs
  | _ =>
    error.message ++ "\nAt line ".toList ++
      (match error.lineno with
        | some .nan => "unknown".toList
        | some .negativeZero => "unknown".toList
        | some (.finite 0 _) => "unknown".toList
        | some n => env.numberToString n
        | none => "unknown".toList)

/-- Whether a message of a report is a missing-closing-tag error of the
open-tag scan. -/
def isMissingTag (e : Str) : Bool := startsWith e "Missing closing tag for <".toList

/-- The condition under which an opening tag is reported: it has a tag name,
the lower-cased name is not in the self-closing set, the tag text does not end
in `/>`, and the closing tag of that name occurs nowhere in the text. -/
def lacksClosingTag (html tag : Str) : Bool :=
  match tagName tag with
  | some name =>
    !selfClosingTags.contains name && !endsWith tag "/>".toList &&
      !includes html ("</".toList ++ name ++ ">".toList)
  | none => false

/-- Whether a message of a report is a duplicate-id error. -/
def isDuplicateId (e : Str) : Bool := startsWith e "Duplicate ID(s) found: ".toList

/-- The values that stand at a position of `xs` where they have occurred
before, `before` being what precedes `xs`. -/
def repeats (before : List Str) : List Str → List Str
  | [] => []
  | x :: xs => (if x ∈ before then [x] else []) ++ repeats (before ++ [x]) xs

/-- The repeated values of a list, each once, in the order of their first
repetition: walk the list, remembering what came before; a value that came
before and is not yet listed is appended to the listing. -/
def firstRepetitions (before listed : List Str) : List Str → List Str
  | [] => listed
  | x :: xs =>
    firstRepetitions (before ++ [x])
      (if x ∈ before ∧ x ∉ listed then listed ++ [x] else listed) xs

/-- One bulleted line of the warning notification. -/
def bullet (error : Str) : Str := "• ".toList ++ error

/-- The closing line of the warning notification that counts the errors left out. -/
def moreIssues (count : Nat) : Str :=
  "... and ".toList ++ numText count ++ " more issues".toList

/-- The lines of the warning notification as the specification words them: the
title, one bulleted line for each of the first `min n 5` messages, and the
closing line exactly when there are more than 5. -/
def warningLines (type : Str) (errors : List Str) : List Str :=
  (type ++ " Issues Detected".toList) ::
    ((errors.take (min errors.length 5)).map bullet ++
      (if errors.length > 5 then [moreIssues (errors.length - 5)] else []))

/-- The root-tag error for the tag of the given name. -/
def rootMessage (name : Str) : Str :=
  "Missing closing </".toList ++ name ++ "> tag".toList

/-- The condition under which the root-tag check reports the tag of the given
name: the text holds `<!DOCTYPE html>` or `<html>`, holds the opening tag, and
does not hold the closing tag. -/
def rootCondition (html name : Str) : Bool :=
  (includes html "<!DOCTYPE html>".toList || includes html "<html>".toList) &&
    includes html ("<".toList ++ name ++ ">".toList) &&
    !includes html ("</".toList ++ name ++ ">".toList)

/-- Whether a message of a report is a missing-semicolon error. -/
def isMissingSemicolon (e : Str) : Bool :=
  startsWith e "Missing semicolon in declaration: \"".toList

/-- Whether at least one of the three tab buttons carries `has-error`. -/
def anyFlag (tabs : Tabs) : Bool :=
  tabs.html == some true || tabs.css == some true || tabs.js == some true

/-- The report of a `validateCSS` call: empty on the blank path. -/
def cssReport (css : Str) : List Str :=
  if css = [] || trim css = [] then [] else cssErrors css

/-- The report of a `validateJavaScript` call: empty on the blank path. -/
def jsReport (env : Env) (js : Str) : List Str :=
  if js = [] || trim js = [] then [] else jsErrors env.compile js

/-- The report of a `validateCode` call: empty on the blank path, otherwise the
report of the kind's validator on the trimmed text. -/
def codeReport (env : Env) (st : State) (type : Kind) : List Str :=
  if trim (st.editors.get type).value = [] then []
  else match type with
    | .html => htmlErrors (trim (st.editors.get type).value)
    | .css => cssReport (trim (st.editors.get type).value)
    | .js => jsReport env (trim (st.editors.get type).value)

/-- A call on the editor: one of the methods that touch the error flags, or an
edit of a fragment. -/
inductive Call where
  | validateCode (type : Kind)
  | validateHTML (html : Str)
  | validateCSS (css : Str)
  | validateJavaScript (js : Str)
  | updateTabErrorIndicator (tabType : Kind) (hasError : Bool)
  | clearErrorIndicators
  | runCode
  | clearCode
  | input (type : Kind) (text : Str)

/-- The state after one call. -/
def Call.apply (env : Env) (st : State) : Call → State
  | .validateCode type => RunThatCode.validateCode env st type
  | .validateHTML html => RunThatCode.validateHTML st html
  | .validateCSS css => RunThatCode.validateCSS st css
  | .validateJavaScript js => RunThatCode.validateJavaScript env st js
  | .updateTabErrorIndicator tabType hasError =>
    RunThatCode.updateTabErrorIndicator st tabType hasError
  | .clearErrorIndicators => RunThatCode.clearErrorIndicators st
  | .runCode => RunThatCode.runCode env st
  | .clearCode => RunThatCode.clearCode env st
  | .input type text => inputEvent st type text

/-- The state after a sequence of calls. -/
def runCalls (env : Env) (st : State) (calls : List Call) : State :=
  calls.foldl (Call.apply env) st

/-- Lower-casing of one character as the tag scan needs it: the letters `A` to
`Z` (codes 65 to 90) move to `a` to `z`, every other character stays. -/
def asciiLower (c : Char) : Char :=
  if 65 ≤ c.toNat ∧ c.toNat ≤ 90 then Char.ofNat (c.toNat + 32) else c

/-- An opening tag starts at the head of `s`: `<`, a character other than `/`,
then characters other than `>`, then `>`. -/
def StartsTag (s : Str) : Prop :=
  ∃ c body rest, s = '<' :: c :: (body ++ '>' :: rest) ∧ c ≠ '/' ∧ '>' ∉ body

set_option maxRecDepth 100000

/-! ## Frame lemmas: what the validators leave alone -/

theorem updateTabErrorIndicator_frame (st : State) (k : Kind) (b : Bool) :
    (updateTabErrorIndicator st k b).previewDisplay = st.previewDisplay ∧
    (updateTabErrorIndicator st k b).demoDisplay = st.demoDisplay ∧
    (updateTabErrorIndicator st k b).previewSrc = st.previewSrc ∧
    (updateTabErrorIndicator st k b).editors = st.editors := by
  unfold updateTabErrorIndicator updateGlobalErrorState
  cases st.tabs.get k <;> simp

theorem showCodeError_frame (st : State) (type : Str) (errors : List Str) :
    (showCodeError st type errors).previewDisplay = st.previewDisplay ∧
    (showCodeError st type errors).demoDisplay = st.demoDisplay ∧
    (showCodeError st type errors).previewSrc = st.previewSrc ∧
    (showCodeError st type errors).editors = st.editors := by
  simp [showCodeError, showNotification]

theorem validateHTML_frame (st : State) (html : Str) :
    (validateHTML st html).previewDisplay = st.previewDisplay ∧
    (validateHTML st html).demoDisplay = st.demoDisplay ∧
    (validateHTML st html).previewSrc = st.previewSrc ∧
    (validateHTML st html).editors = st.editors := by
  unfold validateHTML
  dsimp only
  split
  · have h1 := updateTabErrorIndicator_frame (showCodeError st "HTML".toList (htmlErrors html)) .html true
    have h2 := showCodeError_frame st "HTML".toList (htmlErrors html)
    simp only [h1, h2, and_self]
  · exact updateTabErrorIndicator_frame st .html false

theorem validateCSS_frame (st : State) (css : Str) :
    (validateCSS st css).previewDisplay = st.previewDisplay ∧
    (validateCSS st css).demoDisplay = st.demoDisplay ∧
    (validateCSS st css).previewSrc = st.previewSrc ∧
    (validateCSS st css).editors = st.editors := by
  unfold validateCSS
  split
  · exact updateTabErrorIndicator_frame st .css false
  · dsimp only
    split
    · have h1 := updateTabErrorIndicator_frame (showCodeError st "CSS".toList (cssErrors css)) .css true
      have h2 := showCodeError_frame st "CSS".toList (cssErrors css)
      simp only [h1, h2, and_self]
    · exact updateTabErrorIndicator_frame st .css false

theorem validateJavaScript_frame (env : Env) (st : State) (js : Str) :
    (validateJavaScript env st js).previewDisplay = st.previewDisplay ∧
    (validateJavaScript env st js).demoDisplay = st.demoDisplay ∧
    (validateJavaScript env st js).previewSrc = st.previewSrc ∧
    (validateJavaScript env st js).editors = st.editors := by
  unfold validateJavaScript
  split
  · exact updateTabErrorIndicator_frame st .js false
  · dsimp only
    split
    · have h1 := updateTabErrorIndicator_frame
        (showCodeError st "JavaScript".toList (jsErrors env.compile js)) .js true
      have h2 := showCodeError_frame st "JavaScript".toList (jsErrors env.compile js)
      simp only [h1, h2, and_self]
    · exact updateTabErrorIndicator_frame st .js false

theorem validateCode_frame (env : Env) (st : State) (k : Kind) :
    (validateCode env st k).previewDisplay = st.previewDisplay ∧
    (validateCode env st k).demoDisplay = st.demoDisplay ∧
    (validateCode env st k).previewSrc = st.previewSrc ∧
    (validateCode env st k).editors = st.editors := by
  unfold validateCode
  dsimp only
  by_cases h : trim (st.editors.get k).value = []
  · rw [if_pos h]
    exact updateTabErrorIndicator_frame st k false
  · rw [if_neg h]
    cases k
    · exact validateHTML_frame st _
    · exact validateCSS_frame st _
    · exact validateJavaScript_frame env st _

/-! ## C1: `runCode` and the two surfaces -/

theorem runCode_eq (env : Env) (st : State) :
    runCode env st = if allBlank st then runCodeDemo st else runCodeLoad env st := rfl

/-- C1. `runCode` on blank fragments shows the demo frame, hides the preview
frame and loads nothing; on any other fragments it shows the preview frame,
hides the demo frame and loads exactly `createFullHTML` of the three untrimmed
texts, whatever the validators find.  Either way exactly one frame is shown. -/
theorem runCode_surfaces (env : Env) (st : State) :
    (runCode env st).demoDisplay = (if allBlank st then Display.block else Display.none) ∧
    (runCode env st).previewDisplay = (if allBlank st then Display.none else Display.block) ∧
    (runCode env st).previewSrc =
      (if allBlank st then st.previewSrc
       else some (createFullHTML env st.editors.html.value st.editors.css.value
              st.editors.js.value)) ∧
    (((runCode env st).demoDisplay = Display.block ∧
        (runCode env st).previewDisplay = Display.none) ∨
      ((runCode env st).demoDisplay = Display.none ∧
        (runCode env st).previewDisplay = Display.block)) := by
  rw [runCode_eq]
  cases hb : allBlank st
  · obtain ⟨a1, a2, _, _⟩ := validateCode_frame env
      (validateCode env (validateCode env
        (clearErrorIndicators (hideError (showCodePreview st))) .html) .css) .js
    obtain ⟨b1, b2, _, _⟩ := validateCode_frame env (validateCode env
        (clearErrorIndicators (hideError (showCodePreview st))) .html) .css
    obtain ⟨c1, c2, _, _⟩ := validateCode_frame env
        (clearErrorIndicators (hideError (showCodePreview st))) .html
    have hd : (runCodeLoad env st).demoDisplay = Display.none := by
      unfold runCodeLoad setTimeout updatePreview
      dsimp only
      rw [a2, b2, c2]
      unfold clearErrorIndicators hideError showCodePreview
      dsimp only
    have hp : (runCodeLoad env st).previewDisplay = Display.block := by
      unfold runCodeLoad setTimeout updatePreview
      dsimp only
      rw [a1, b1, c1]
      unfold clearErrorIndicators hideError showCodePreview
      dsimp only
    have hs : (runCodeLoad env st).previewSrc =
        some (createFullHTML env st.editors.html.value st.editors.css.value
          st.editors.js.value) := by
      unfold runCodeLoad setTimeout updatePreview
      dsimp only
    simp only [Bool.false_eq_true, if_false, hd, hp, hs, and_self, or_true]
  · have hd : (runCodeDemo st).demoDisplay = Display.block := by
      unfold runCodeDemo showNotification showDemoPreview
      dsimp only
    have hp : (runCodeDemo st).previewDisplay = Display.none := by
      unfold runCodeDemo showNotification showDemoPreview
      dsimp only
    have hs : (runCodeDemo st).previewSrc = st.previewSrc := by
      unfold runCodeDemo showNotification showDemoPreview
      dsimp only
    simp only [if_true, hd, hp, hs, and_self, true_or]

/-! ## C2: the composed document of a bare fragment -/

/-- C2. For an html text without `<!DOCTYPE html>` and without `<html>`, the
composed document is the fixed template with the css text, then no head content,
then the html text, then the js text in their slots, each text verbatim.  The
css slot directly follows the opening of the style block and is followed by its
closing tag; the js slot directly follows the opening of the try block, which
comes after the error handler and the click interceptor, and is followed by the
catch block that posts type, message and stack. -/
theorem createFullHTML_fragment (env : Env) (html css js : Str)
    (hdoctype : includes html "<!DOCTYPE html>".toList = false)
    (hroot : includes html "<html>".toList = false) :
    createFullHTML env html css js =
        templateHead ++ css ++ templateAfterCss ++ templateAfterHead ++ html ++
          templateScript ++ js ++ templateTail ∧
      endsWith templateHead "<style>\n        ".toList = true ∧
      startsWith templateAfterCss "\n    </style>\n".toList = true ∧
      startsWith templateAfterHead "\n</head>\n<body>\n".toList = true ∧
      startsWith templateScript "\n    <script>\n        window.addEventListener('error', ".toList
        = true ∧
      includes templateScript "document.addEventListener('click', function(e) ".toList = true ∧
      endsWith templateScript "\x7d);\n        \n        try \x7b\n            ".toList = true ∧
      startsWith templateTail
        ("\n        \x7d catch (error) \x7b\n            parent.postMessage(\x7b\n".toList ++
         "                type: 'error',\n                message: error.message,\n".toList ++
         "                stack: error.stack\n            \x7d, '*');\n        \x7d\n".toList ++
         "    </script>\n".toList) = true := by
  refine ⟨?_, by decide, by decide, by decide, by decide, by decide, by decide, by decide⟩
  unfold createFullHTML
  rw [hdoctype, hroot]
  simp only [Bool.or_self, Bool.false_eq_true, if_false, List.append_nil]

/-- C2, instantiated: a css text holding `</style>` and a js text holding
`</script>` reach the composed document unchanged. -/
theorem createFullHTML_fragment_witness :
    createFullHTML sampleEnv "<p>x</p>".toList "a\x7b\x7d</style>".toList
        "f()</script>".toList =
      templateHead ++ "a\x7b\x7d</style>".toList ++ templateAfterCss ++ templateAfterHead ++
        "<p>x</p>".toList ++ templateScript ++ "f()</script>".toList ++ templateTail :=
  (createFullHTML_fragment sampleEnv "<p>x</p>".toList "a\x7b\x7d</style>".toList
    "f()</script>".toList (by decide) (by decide)).1

/-! ## C6: the brace count of `validateCSS` -/

theorem startsWith_append_left (p x : Str) : startsWith (p ++ x) p = true := by
  unfold startsWith
  induction p with
  | nil => simp [List.isPrefixOf]
  | cons a p ih => simp [List.isPrefixOf]

theorem mismatchMessage_braces (a b : Nat) :
    mismatchMessage "braces".toList a b =
      "Mismatched braces: ".toList ++ numText a ++ " opening, ".toList ++ numText b ++
        " closing".toList := rfl

theorem mismatchMessage_parentheses (a b : Nat) :
    mismatchMessage "parentheses".toList a b =
      "Mismatched parentheses: ".toList ++ numText a ++ " opening, ".toList ++ numText b ++
        " closing".toList := rfl

theorem mismatchMessage_brackets (a b : Nat) :
    mismatchMessage "brackets".toList a b =
      "Mismatched brackets: ".toList ++ numText a ++ " opening, ".toList ++ numText b ++
        " closing".toList := rfl

theorem ruleErrors_not_mismatch (rule : Str) :
    ∀ e ∈ ruleErrors rule, isBraceMismatch e = false := by
  intro e he
  unfold ruleErrors at he
  split at he
  · split at he
    · simp only [List.mem_map] at he
      obtain ⟨line, _, rfl⟩ := he
      simp [isBraceMismatch, startsWith, List.isPrefixOf]
    · simp at he
  · simp at he

theorem flatMap_ruleErrors_filter (rules : List Str) :
    (rules.flatMap ruleErrors).filter isBraceMismatch = [] := by
  rw [List.filter_eq_nil_iff]
  intro e he
  rw [List.mem_flatMap] at he
  obtain ⟨rule, _, hr⟩ := he
  simp [ruleErrors_not_mismatch rule e hr]

/-- C6. For a non-blank css text `validateCSS` works on the report `cssErrors`;
the report holds a brace-mismatch error exactly when the numbers of opening and
closing braces differ, then holds exactly one, as its first entry, and that
error states both counts. -/
theorem validateCSS_brace_mismatch (st : State) (css : Str) (hnb : trim css ≠ []) :
    validateCSS st css =
        (if (cssErrors css).length > 0
          then updateTabErrorIndicator (showCodeError st "CSS".toList (cssErrors css)) .css true
          else updateTabErrorIndicator st .css false) ∧
      ((∃ e ∈ cssErrors css, isBraceMismatch e = true) ↔
        countChar '{' css ≠ countChar '}' css) ∧
      (cssErrors css).filter isBraceMismatch =
        (if countChar '{' css ≠ countChar '}' css
          then [mismatchMessage "braces".toList (countChar '{' css) (countChar '}' css)]
          else []) ∧
      (cssErrors css).head? =
        (if countChar '{' css ≠ countChar '}' css
          then some (mismatchMessage "braces".toList (countChar '{' css) (countChar '}' css))
          else ((cssRules css).flatMap ruleErrors).head?) := by
  have hmsg : ∀ a b : Nat, isBraceMismatch (mismatchMessage "braces".toList a b) = true := by
    intro a b
    rw [mismatchMessage_braces]
    simp only [List.append_assoc]
    exact startsWith_append_left "Mismatched braces: ".toList _
  have hfilter : (cssErrors css).filter isBraceMismatch =
        (if countChar '{' css ≠ countChar '}' css
          then [mismatchMessage "braces".toList (countChar '{' css) (countChar '}' css)]
          else []) := by
    unfold cssErrors
    dsimp only
    rw [← mismatchMessage_braces]
    by_cases h : countChar '{' css = countChar '}' css
    · simp only [h, ne_eq, not_true_eq_false, if_false, List.nil_append]
      exact flatMap_ruleErrors_filter _
    · simp only [h, ne_eq, not_false_eq_true, if_true, List.nil_append, List.filter_append,
        flatMap_ruleErrors_filter, List.append_nil, List.filter_cons, hmsg, List.filter_nil]
  refine ⟨?_, ?_, hfilter, ?_⟩
  · unfold validateCSS
    have h1 : css ≠ [] := by
      rintro rfl
      exact hnb (by decide)
    simp only [h1, hnb, decide_False, Bool.or_self, Bool.false_eq_true, if_false]
  · constructor
    · rintro ⟨e, he, hm⟩
      by_contra hc
      have : e ∈ (cssErrors css).filter isBraceMismatch := List.mem_filter.2 ⟨he, hm⟩
      rw [hfilter, if_neg (not_not.2 hc)] at this
      simp at this
    · intro hne
      have : mismatchMessage "braces".toList (countChar '{' css) (countChar '}' css) ∈
          (cssErrors css).filter isBraceMismatch := by
        rw [hfilter, if_pos hne]
        simp
      exact ⟨_, (List.mem_filter.1 this).1, (List.mem_filter.1 this).2⟩
  · unfold cssErrors
    dsimp only
    rw [← mismatchMessage_braces]
    by_cases h : countChar '{' css = countChar '}' css
    · simp only [h, ne_eq, not_true_eq_false, if_false, List.nil_append]
    · simp only [h, ne_eq, not_false_eq_true, if_true, List.nil_append,
        List.singleton_append, List.head?_cons]

/-- C6, instantiated at `a { color: red`: the report starts with the mismatch
of 1 opening and 0 closing braces. -/
theorem validateCSS_brace_mismatch_witness :
    (cssErrors "a \x7b color: red".toList).filter isBraceMismatch =
      ["Mismatched braces: 1 opening, 0 closing".toList] :=
  (validateCSS_brace_mismatch (sampleState [] [] []) "a \x7b color: red".toList
    (by decide)).2.2.1.trans (by decide)

/-! ## C7: the report of `validateJavaScript` -/

/-- C7. For a non-blank script `validateJavaScript` works on the report
`jsErrors`, which is, in this order: the syntax error with the compiler's
message if the compile attempt failed, the parenthesis mismatch if the counts of
`(` and `)` differ, the bracket mismatch if those of `[` and `]` differ, the
brace mismatch if those of the two braces differ, each with both counts; the
three count checks do not depend on the compile attempt. -/
theorem validateJavaScript_report (env : Env) (st : State) (js : Str) (hnb : trim js ≠ []) :
    validateJavaScript env st js =
        (if (jsErrors env.compile js).length > 0
          then updateTabErrorIndicator
            (showCodeError st "JavaScript".toList (jsErrors env.compile js)) .js true
          else updateTabErrorIndicator st .js false) ∧
      jsErrors env.compile js =
        (match env.compile js with
          | some message => ["Syntax Error: ".toList ++ message]
          | none => []) ++
        (if countChar '(' js ≠ countChar ')' js
          then [mismatchMessage "parentheses".toList (countChar '(' js) (countChar ')' js)]
          else []) ++
        (if countChar '[' js ≠ countChar ']' js
          then [mismatchMessage "brackets".toList (countChar '[' js) (countChar ']' js)]
          else []) ++
        (if countChar '{' js ≠ countChar '}' js
          then [mismatchMessage "braces".toList (countChar '{' js) (countChar '}' js)]
          else []) := by
  constructor
  · unfold validateJavaScript
    have h1 : js ≠ [] := by
      rintro rfl
      exact hnb (by decide)
    simp only [h1, hnb, decide_False, Bool.or_self, Bool.false_eq_true, if_false]
  · unfold jsErrors
    dsimp only
    rw [← mismatchMessage_braces, ← mismatchMessage_parentheses, ← mismatchMessage_brackets]
    cases env.compile js <;>
      by_cases h1 : countChar '(' js = countChar ')' js <;>
      by_cases h2 : countChar '[' js = countChar ']' js <;>
      by_cases h3 : countChar '{' js = countChar '}' js <;>
      simp only [h1, h2, h3, ne_eq, not_true_eq_false, not_false_eq_true, if_true, if_false,
        List.nil_append, List.append_nil, List.append_assoc]

/-- C7, instantiated at `function( {` with a compiler that rejects it: a syntax
error, a parenthesis mismatch of 1 and 0 and a brace mismatch of 1 and 0. -/
theorem validateJavaScript_report_witness :
    jsErrors (failingEnv "Unexpected token".toList).compile "function( \x7b".toList =
      ["Syntax Error: Unexpected token".toList,
       "Mismatched parentheses: 1 opening, 0 closing".toList,
       "Mismatched braces: 1 opening, 0 closing".toList] :=
  (validateJavaScript_report (failingEnv "Unexpected token".toList) (sampleState [] [] [])
    "function( \x7b".toList (by decide)).2.trans (by decide)

/-! ## C9: the debounce slot shared by the two input listeners -/

/-- C9. After an `input` event the timers still pending are those that were
pending before, less the one held in the debounce slot and less the save timer
the auto-save listener has just started (its id is the old `nextTimerId`), plus
one validation timer due 1500 after the event; the slot holds that validation
timer.  The save started by the event is therefore cancelled within the same
event and never fires.  On the freshly built editor the only timer pending
after a keystroke is the validation. -/
theorem inputEvent_cancels_save (st : State) (type : Kind) (text : Str) :
    (inputEvent st type text).timers =
        ((clearTimeout st st.debounceTimer).timers.filter
            (fun t => t.id != st.nextTimerId)) ++
          [⟨st.nextTimerId + 1, st.now + 1500, TimerAction.validateCode type⟩] ∧
      (inputEvent st type text).debounceTimer = some (st.nextTimerId + 1) ∧
      (inputEvent (sampleState [] [] []) Kind.html "x".toList).timers =
        [⟨2, 1500, TimerAction.validateCode Kind.html⟩] ∧
      (inputEvent (sampleState [] [] []) Kind.html "x".toList).timers.filter
        (fun t => t.action == TimerAction.saveToStorage) = [] := by
  refine ⟨?_, ?_, by decide, by decide⟩
  · cases hd : st.debounceTimer <;>
      simp [inputEvent, debounce, clearTimeout, setTimeout, hd, List.filter_append]
  · cases hd : st.debounceTimer <;>
      simp [inputEvent, debounce, clearTimeout, setTimeout, hd]

/-! ## C10: the error relay -/

/-- C10, as stated, fails: for an error message without stack whose line number
is 0 the panel shows `At line unknown`, not `At line 0`. -/
theorem onMessage_lineno_zero_counterexample :
    (onMessage sampleEnv (sampleState [] [] [])
        ⟨"error".toList, "boom".toList, none, some (JsNumber.finite 0 0)⟩).errorMessage
        = "boom\nAt line unknown".toList ∧
      specErrorText sampleEnv ⟨"error".toList, "boom".toList, none, some (JsNumber.finite 0 0)⟩
        = "boom\nAt line 0".toList ∧
      (onMessage sampleEnv (sampleState [] [] [])
        ⟨"error".toList, "boom".toList, none, some (JsNumber.finite 0 0)⟩).errorMessage
        ≠ specErrorText sampleEnv
            ⟨"error".toList, "boom".toList, none, some (JsNumber.finite 0 0)⟩ := by
  decide

theorem errorText_eq_amended (env : Env) (data : MessageData) :
    errorText env data = amendedErrorText env data := by
  unfold errorText amendedErrorText
  rcases hs : data.stack with _ | (_ | ⟨c, cs⟩) <;> dsimp only
  all_goals
    rcases hl : data.lineno with _ | n
    · rfl
    · cases n with
      | nan => rfl
      | infinity negative => rfl
      | negativeZero => rfl
      | finite mantissa exponent =>
        by_cases hm : mantissa = 0
        · subst hm
          rfl
        · have hf : (JsNumber.finite mantissa exponent).falsy = false := by
            unfold JsNumber.falsy
            simpa using hm
          simp only [hf, Bool.false_eq_true, if_false]
          split <;> first | rfl | simp_all

theorem errorText_ne_nil (env : Env) (data : MessageData) : errorText env data ≠ [] := by
  unfold errorText
  rcases hs : data.stack with _ | (_ | ⟨c, cs⟩) <;> simp

/-- C10, amended. For a message of type `error` the panel text is the stack
when one is present and non-empty, and otherwise the message text, a newline and
`At line ` followed by the line number as the engine prints it, or by `unknown`
when the message carries no line number or the line number is `0`, `-0` or
`NaN`; the panel is shown and one notification `Runtime Error: ` plus the
message text is added.  For any other message the panel text, the panel's
visibility and the notifications are unchanged.  With an engine that prints 12
as `12`, line 12 shows as `At line 12`; `NaN` shows as `At line unknown`. -/
theorem onMessage_relay (env : Env) (st : State) (data : MessageData) :
    (onMessage env st data).errorMessage =
        (if data.type = "error".toList then amendedErrorText env data else st.errorMessage) ∧
      (onMessage env st data).errorShown =
        (if data.type = "error".toList then true else st.errorShown) ∧
      (onMessage env st data).notifications =
        (if data.type = "error".toList
          then st.notifications ++
            [⟨"Runtime Error: ".toList ++ data.message, "error".toList, 5000⟩]
          else st.notifications) ∧
      (onMessage sampleEnv (sampleState [] [] [])
        ⟨"error".toList, "boom".toList, none, some (JsNumber.finite 12 0)⟩).errorMessage
        = "boom\nAt line 12".toList ∧
      (onMessage sampleEnv (sampleState [] [] [])
        ⟨"error".toList, "boom".toList, none, some JsNumber.nan⟩).errorMessage
        = "boom\nAt line unknown".toList ∧
      (onMessage sampleEnv (sampleState [] [] [])
        ⟨"error".toList, "boom".toList, some "at f (x.js:1)".toList,
          some (JsNumber.finite 12 0)⟩).errorMessage
        = "at f (x.js:1)".toList := by
  have htext := errorText_eq_amended env data
  have hne := errorText_ne_nil env data
  rw [htext] at hne
  refine ⟨?_, ?_, ?_, by decide, by decide, by decide⟩
  all_goals
    unfold onMessage
    by_cases h : data.type = "error".toList
    · simp only [h, if_true, showNotification, showError, setTimeout, hne, ne_eq,
        not_false_eq_true, htext]
    · simp only [h, if_false]

/-! ## C8: saving and loading the snapshot -/

theorem takeWhile_replicate_a (n : Nat) (rest : Str) :
    (List.replicate n 'a' ++ 'b' :: rest).takeWhile (fun x => x == 'a') = List.replicate n 'a' := by
  induction n with
  | zero => simp [List.takeWhile]
  | succ n ih => simp [List.replicate_succ, List.takeWhile, ih]

theorem dropWhile_replicate_a (n : Nat) (rest : Str) :
    (List.replicate n 'a' ++ 'b' :: rest).dropWhile (fun x => x == 'a') = 'b' :: rest := by
  induction n with
  | zero => simp [List.dropWhile]
  | succ n ih => simp [List.replicate_succ, List.dropWhile, ih]

theorem decode_encode (code : Snapshot) :
    decodeSnapshot (encodeSnapshot code) =
      some ⟨.text code.html, .text code.css, .text code.js⟩ := by
  unfold decodeSnapshot encodeSnapshot
  simp only [takeWhile_replicate_a, dropWhile_replicate_a, List.tail_cons, List.length_replicate]
  simp [List.take_append_eq_append_take, List.drop_append_eq_append_drop, List.append_assoc]

theorem trim_nil : trim [] = [] := by decide

theorem loadField_text (s : Str) (e : Editor) :
    loadField (.text s) e =
      some (if trim s ≠ [] ∧ (e.value = e.defaultValue ∨ trim e.value = [])
        then { e with value := s } else e) := by
  unfold loadField
  by_cases hs : s = []
  · subst hs
    simp [trim_nil]
  · by_cases ht : trim s = [] <;> by_cases h1 : e.value = e.defaultValue <;>
      by_cases h2 : trim e.value = [] <;> simp [hs, ht, h1, h2]

theorem loadFromStorage_text (env : Env) (st : State) (saved : Str) (code : Snapshot)
    (hstore : st.storage = some saved) (hne : saved ≠ [])
    (hparse : env.parse saved = some ⟨.text code.html, .text code.css, .text code.js⟩)
    (k : Kind) :
    ((loadFromStorage env st).editors.get k).value =
      (if trim (code.get k) ≠ [] ∧
          ((st.editors.get k).value = (st.editors.get k).defaultValue ∨
            trim (st.editors.get k).value = [])
        then code.get k
        else (st.editors.get k).value) := by
  unfold loadFromStorage
  simp only [hstore, hne, if_false, hparse, loadField_text]
  cases k <;> simp only [Editors.get, Snapshot.get] <;> split <;> simp_all

/-- C8, as stated, fails: a saved html text of one space is not restored.  With
a store that returns what was written and a parser that inverts serialisation,
saving the fragments `" "`, `""`, `""` and loading into fresh empty fragments
leaves the html fragment empty. -/
theorem loadFromStorage_blank_counterexample :
    sampleEnv.parse (sampleEnv.stringify ⟨" ".toList, [], []⟩) =
        some ⟨.text " ".toList, .text [], .text []⟩ ∧
      (saveToStorage sampleEnv (sampleState " ".toList [] [])).storage =
        some (sampleEnv.stringify ⟨" ".toList, [], []⟩) ∧
      (loadFromStorage sampleEnv
        { sampleState [] [] [] with
          storage := (saveToStorage sampleEnv (sampleState " ".toList [] [])).storage
        }).editors.html.value = [] ∧
      (loadFromStorage sampleEnv
        { sampleState [] [] [] with
          storage := (saveToStorage sampleEnv (sampleState " ".toList [] [])).storage
        }).editors.html.value ≠ " ".toList :=
  ⟨by decide, by decide, by decide, by decide⟩

/-- C8, amended. Let the store accept the write of `saveToStorage`, let the
written text be non-empty and let parsing it give back the three saved strings.
Then `loadFromStorage`, run on any editor whose store holds what was saved, sets
a fragment to the saved field exactly when the saved field is non-blank and the
fragment's current value is blank or equal to its default value, and leaves the
fragment unchanged otherwise.  In particular, loading into fragments whose
values are empty restores every non-blank saved field exactly and leaves the
fragment of a blank saved field empty. -/
theorem loadFromStorage_roundTrip (env : Env) (st fresh : State)
    (hquota : env.quotaExceeded (env.stringify (snapshotOf st)) = false)
    (hne : env.stringify (snapshotOf st) ≠ [])
    (hparse : env.parse (env.stringify (snapshotOf st)) =
      some ⟨.text (snapshotOf st).html, .text (snapshotOf st).css, .text (snapshotOf st).js⟩)
    (hstore : fresh.storage = (saveToStorage env st).storage) :
    (∀ k : Kind, ((loadFromStorage env fresh).editors.get k).value =
        (if trim (st.editors.get k).value ≠ [] ∧
            ((fresh.editors.get k).value = (fresh.editors.get k).defaultValue ∨
              trim (fresh.editors.get k).value = [])
          then (st.editors.get k).value
          else (fresh.editors.get k).value)) ∧
      ((∀ k : Kind, (fresh.editors.get k).value = []) →
        ∀ k : Kind, ((loadFromStorage env fresh).editors.get k).value =
          (if trim (st.editors.get k).value ≠ [] then (st.editors.get k).value else [])) := by
  have hsaved : fresh.storage = some (env.stringify (snapshotOf st)) := by
    rw [hstore]
    unfold saveToStorage
    simp only [snapshotOf] at hquota
    simp only [hquota, Bool.false_eq_true, if_false, snapshotOf]
  have hget : ∀ k : Kind, (snapshotOf st).get k = (st.editors.get k).value := by
    intro k
    cases k <;> rfl
  have hmain : ∀ k : Kind, ((loadFromStorage env fresh).editors.get k).value =
        (if trim (st.editors.get k).value ≠ [] ∧
            ((fresh.editors.get k).value = (fresh.editors.get k).defaultValue ∨
              trim (fresh.editors.get k).value = [])
          then (st.editors.get k).value
          else (fresh.editors.get k).value) := by
    intro k
    rw [loadFromStorage_text env fresh _ (snapshotOf st) hsaved hne hparse k, hget k]
  refine ⟨hmain, ?_⟩
  intro hempty k
  rw [hmain k, hempty k]
  simp only [trim_nil, or_true, and_true]

/-- C8, instantiated at the snapshot of the specification: the three saved texts
come back into fresh empty fragments. -/
theorem loadFromStorage_roundTrip_witness :
    (loadFromStorage sampleEnv
        { sampleState [] [] [] with
          storage := (saveToStorage sampleEnv (sampleState "<p>x</p>".toList
            "p\x7bcolor:blue\x7d".toList "console.log(1)".toList)).storage
        }).editors.html.value = "<p>x</p>".toList ∧
      (loadFromStorage sampleEnv
        { sampleState [] [] [] with
          storage := (saveToStorage sampleEnv (sampleState "<p>x</p>".toList
            "p\x7bcolor:blue\x7d".toList "console.log(1)".toList)).storage
        }).editors.css.value = "p\x7bcolor:blue\x7d".toList ∧
      (loadFromStorage sampleEnv
        { sampleState [] [] [] with
          storage := (saveToStorage sampleEnv (sampleState "<p>x</p>".toList
            "p\x7bcolor:blue\x7d".toList "console.log(1)".toList)).storage
        }).editors.js.value = "console.log(1)".toList := by
  have h := (loadFromStorage_roundTrip sampleEnv
    (sampleState "<p>x</p>".toList "p\x7bcolor:blue\x7d".toList "console.log(1)".toList)
    { sampleState [] [] [] with
      storage := (saveToStorage sampleEnv (sampleState "<p>x</p>".toList
        "p\x7bcolor:blue\x7d".toList "console.log(1)".toList)).storage }
    (by decide) (by decide) (by decide) rfl).2 (by intro k; cases k <;> rfl)
  exact ⟨(h Kind.html).trans (by decide), (h Kind.css).trans (by decide),
    (h Kind.js).trans (by decide)⟩

/-! ## Lemmas about the string primitives -/

theorem includes_nil (p : Str) : includes [] p = p.isPrefixOf [] := by
  unfold includes
  simp

theorem includes_cons (c : Char) (cs p : Str) :
    includes (c :: cs) p = (p.isPrefixOf (c :: cs) || includes cs p) := by
  rw [includes]

theorem includes_iff (s p : Str) : includes s p = true ↔ p <:+: s := by
  induction s with
  | nil =>
    rw [includes_nil, List.isPrefixOf_iff_prefix]
    simp
  | cons c cs ih =>
    rw [includes_cons, Bool.or_eq_true, List.isPrefixOf_iff_prefix, ih, List.infix_cons_iff]

theorem includes_eq_false_iff (s p : Str) : includes s p = false ↔ ¬ p <:+: s := by
  rw [← includes_iff]
  simp

theorem split_of_not_mem (sep : Char) (a : Str) (h : sep ∉ a) : split sep a = [a] := by
  induction a with
  | nil => rfl
  | cons c cs ih =>
    have hc : c ≠ sep := fun e => h (e ▸ List.mem_cons_self _ _)
    have hcs : sep ∉ cs := fun m => h (List.mem_cons_of_mem _ m)
    simp [split, hc, ih hcs]

theorem split_append_sep (sep : Char) (a b : Str) (h : sep ∉ a) :
    split sep (a ++ sep :: b) = a :: split sep b := by
  induction a with
  | nil => simp [split]
  | cons c cs ih =>
    have hc : c ≠ sep := fun e => h (e ▸ List.mem_cons_self _ _)
    have hcs : sep ∉ cs := fun m => h (List.mem_cons_of_mem _ m)
    simp [split, hc, ih hcs]

theorem split_ne_nil (sep : Char) (s : Str) : split sep s ≠ [] := by
  induction s with
  | nil => simp [split]
  | cons c cs ih =>
    unfold split
    split
    · simp
    · split
      · simp
      · simp

theorem length_split (sep : Char) (s : Str) : (split sep s).length = s.count sep + 1 := by
  induction s with
  | nil => simp [split]
  | cons c cs ih =>
    unfold split
    by_cases hc : c = sep
    · subst hc
      simp [ih]
    · rw [if_neg hc]
      have hne := split_ne_nil sep cs
      cases hsp : split sep cs with
      | nil => exact absurd hsp hne
      | cons p ps =>
        rw [hsp] at ih
        simp only [List.length_cons] at ih ⊢
        rw [List.count_cons_of_ne (fun e => hc e.symm)]
        exact ih

theorem trim_within (s : Str) : trim s <:+: s := by
  unfold trim
  exact List.IsInfix.trans (List.rdropWhile_prefix _ _).isInfix (List.dropWhile_suffix _).isInfix

theorem trim_cons_ws (w : Char) (s : Str) (hw : isWhiteSpace w = true) :
    trim (w :: s) = trim s := by
  unfold trim
  rw [List.dropWhile_cons_of_pos hw]

theorem rdropWhile_concat_ws (w : Char) (s : Str) (hw : isWhiteSpace w = true) :
    (s ++ [w]).rdropWhile isWhiteSpace = s.rdropWhile isWhiteSpace := by
  rw [List.rdropWhile_concat_pos _ _ _ hw]

theorem trim_concat_ws (w : Char) (s : Str) (hw : isWhiteSpace w = true) :
    trim (s ++ [w]) = trim s := by
  unfold trim
  induction s with
  | nil => simp [List.dropWhile, hw, List.rdropWhile]
  | cons c cs ih =>
    by_cases hc : isWhiteSpace c = true
    · rw [List.cons_append, List.dropWhile_cons_of_pos hc, List.dropWhile_cons_of_pos hc]
      exact ih
    · rw [List.cons_append, List.dropWhile_cons_of_neg hc, List.dropWhile_cons_of_neg hc]
      rw [← List.cons_append, rdropWhile_concat_ws w _ hw]

theorem dropWhile_count (c : Char) (s : Str) (hc : isWhiteSpace c = false) :
    (s.dropWhile isWhiteSpace).count c = s.count c := by
  induction s with
  | nil => rfl
  | cons x xs ih =>
    by_cases hx : isWhiteSpace x = true
    · rw [List.dropWhile_cons_of_pos hx, ih]
      have : x ≠ c := by
        rintro rfl
        rw [hx] at hc
        exact Bool.noConfusion hc
      rw [List.count_cons_of_ne this.symm]
    · rw [List.dropWhile_cons_of_neg hx]

theorem rdropWhile_count (c : Char) (s : Str) (hc : isWhiteSpace c = false) :
    (s.rdropWhile isWhiteSpace).count c = s.count c := by
  unfold List.rdropWhile
  rw [List.count_reverse, dropWhile_count c _ hc, List.count_reverse]

theorem trim_count (c : Char) (s : Str) (hc : isWhiteSpace c = false) :
    (trim s).count c = s.count c := by
  unfold trim
  rw [rdropWhile_count c _ hc, dropWhile_count c _ hc]

theorem trim_ne_nil_of_mem (c : Char) (s : Str) (hc : isWhiteSpace c = false) (hm : c ∈ s) :
    trim s ≠ [] := by
  intro h
  have h1 := trim_count c s hc
  rw [h] at h1
  have h2 : 0 < s.count c := List.count_pos_iff.2 hm
  simp at h1
  omega

theorem mem_of_mem_trim (c : Char) (s : Str) (h : c ∈ trim s) : c ∈ s :=
  (trim_within s).subset h

/-! ## Lemmas about comment stripping -/

theorem commentAt_eq_none (x : Str) (h : ¬ "/*".toList <:+: x) : commentAt x = none := by
  match x with
  | [] => rfl
  | [_] => unfold commentAt; split <;> simp_all
  | a :: b :: rest =>
    by_cases hab : a = '/' ∧ b = '*'
    · exfalso
      apply h
      obtain ⟨rfl, rfl⟩ := hab
      exact ⟨[], rest, rfl⟩
    · unfold commentAt
      split
      · rename_i heq
        simp only [List.cons.injEq] at heq
        exact absurd ⟨heq.1, heq.2.1⟩ hab
      · rfl

theorem stripComments_of_no_open (x : Str) (h : ¬ "/*".toList <:+: x) :
    stripComments 0 x = x := by
  induction x with
  | nil => rfl
  | cons c cs ih =>
    have hcs : ¬ "/*".toList <:+: cs := fun hi => h (List.infix_cons hi)
    rw [stripComments, commentAt_eq_none _ h]
    simp only
    rw [ih hcs]

/-! ## C5: a single declaration without its semicolon -/

theorem no_open_pad (d : Str) (h : ¬ "/*".toList <:+: d) :
    ¬ "/*".toList <:+: ' ' :: (d ++ [' ']) := by
  intro hi
  rcases List.infix_cons_iff.1 hi with hp | hi2
  · have := List.cons_prefix_cons.1 hp
    exact absurd this.1 (by decide)
  · rcases List.infix_concat_iff.1 hi2 with hsuf | hin
    · rcases List.suffix_concat_iff.1 hsuf with hnil | ⟨t, ht, _⟩
      · exact absurd hnil (by decide)
      · have h2 : ("/*".toList).getLast? = (t ++ [' ']).getLast? := by rw [ht]
        rw [List.getLast?_concat] at h2
        exact absurd h2 (by decide)
    · exact h hin

theorem padded_eq (s d : Str) :
    s ++ " \x7b ".toList ++ d ++ " \x7d".toList =
      (s ++ ' ' :: ('{' :: (' ' :: (d ++ [' '])))) ++ '}' :: [] := by
  have h1 : " \x7b ".toList = [' ', '{', ' '] := rfl
  have h2 : " \x7d".toList = [' ', '}'] := rfl
  rw [h1, h2]
  simp

theorem keepLine_trim (d : Str) (hnb : trim d ≠ [])
    (hopen : includes d "/*".toList = false) (hclose : includes d "*/".toList = false)
    (hstar : startsWith (trim d) "*".toList = false) : keepLine (trim d) = true := by
  have h1 : startsWith (trim d) "/*".toList = false := by
    by_contra hc
    rw [Bool.not_eq_false] at hc
    unfold startsWith at hc
    rw [List.isPrefixOf_iff_prefix] at hc
    exact (includes_eq_false_iff _ _).1 hopen (hc.isInfix.trans (trim_within d))
  have h2 : endsWith (trim d) "*/".toList = false := by
    by_contra hc
    rw [Bool.not_eq_false] at hc
    unfold endsWith at hc
    rw [List.isSuffixOf_iff_suffix] at hc
    exact (includes_eq_false_iff _ _).1 hclose (hc.isInfix.trans (trim_within d))
  unfold keepLine
  rw [h1, h2, hstar]
  simp only [ne_eq, hnb, not_false_eq_true, decide_True, Bool.not_false, Bool.and_self]

theorem endsWith_singleton_false (c : Char) (x : Str) (h : c ∉ x) :
    endsWith x [c] = false := by
  by_contra hc
  rw [Bool.not_eq_false] at hc
  unfold endsWith at hc
  rw [List.isSuffixOf_iff_suffix] at hc
  exact h (hc.subset (List.mem_singleton_self c))

theorem includes_singleton (c : Char) (x : Str) (h : c ∈ x) : includes x [c] = true := by
  rw [includes_iff]
  obtain ⟨a, b, rfl⟩ := List.append_of_mem h
  exact ⟨a, b, by simp⟩

theorem lacksSemicolon_trim (d : Str) ( hbrace : '{' ∉ d) (hcolon : countChar ':' d = 1) :
    lacksSemicolon (trim d) = !endsWith (trim d) ";".toList := by
  have hcnt : (trim d).count ':' = 1 := by
    rw [trim_count ':' d (by decide)]
    exact hcolon
  have hmem : ':' ∈ trim d := List.count_pos_iff.1 (by omega)
  have h1 : includes (trim d) ":".toList = true := includes_singleton ':' _ hmem
  have h2 : endsWith (trim d) "\x7b".toList = false :=
    endsWith_singleton_false '{' _ (fun hm => hbrace (mem_of_mem_trim _ _ hm))
  have h3 : (split ':' (trim d)).length = 2 := by rw [length_split, hcnt]
  unfold lacksSemicolon
  rw [h1, h2, h3]
  simp only [Bool.true_and, Bool.not_false, Bool.and_true, beq_self_eq_true]

theorem ruleErrors_single (s d : Str) (hs : '{' ∉ s) (hd : '{' ∉ d) (hnl : '\n' ∉ d)
    (hopen : includes d "/*".toList = false) :
    ruleErrors (s ++ ' ' :: ('{' :: (' ' :: (d ++ [' '])))) =
      ((([trim d].filter keepLine).filter lacksSemicolon).map
        (fun line => "Missing semicolon in declaration: \"".toList ++ line ++ "\"".toList)) := by
  have hs2 : '{' ∉ s ++ [' '] := by
    simp only [List.mem_append, List.mem_singleton, not_or]
    exact ⟨hs, by decide⟩
  have hd2 : '{' ∉ ' ' :: (d ++ [' ']) := by
    simp only [List.mem_cons, List.mem_append, List.mem_singleton, List.not_mem_nil, not_or]
    exact ⟨by decide, hd, by decide, not_false⟩
  have hsplit : split '{' (s ++ ' ' :: ('{' :: (' ' :: (d ++ [' '])))) =
      [s ++ [' '], ' ' :: (d ++ [' '])] := by
    have : s ++ ' ' :: ('{' :: (' ' :: (d ++ [' ']))) =
        (s ++ [' ']) ++ '{' :: (' ' :: (d ++ [' '])) := by simp
    rw [this, split_append_sep '{' _ _ hs2, split_of_not_mem '{' _ hd2]
  have hnl2 : '\n' ∉ ' ' :: (d ++ [' ']) := by
    simp only [List.mem_cons, List.mem_append, List.mem_singleton, List.not_mem_nil, not_or]
    exact ⟨by decide, hnl, by decide, not_false⟩
  have hstrip : stripComments 0 (' ' :: (d ++ [' '])) = ' ' :: (d ++ [' ']) :=
    stripComments_of_no_open _ (no_open_pad d ((includes_eq_false_iff _ _).1 hopen))
  have htrim : trim (' ' :: (d ++ [' '])) = trim d := by
    rw [trim_cons_ws ' ' _ (by decide), trim_concat_ws ' ' _ (by decide)]
  unfold ruleErrors
  rw [hsplit]
  simp only [ne_eq, List.cons_ne_nil, not_false_eq_true, if_true, hstrip,
    split_of_not_mem '\n' _ hnl2, List.map_cons, List.map_nil, htrim]

theorem cssRules_single (rule : Str) (hrule : '}' ∉ rule) (hopen : '{' ∈ rule) :
    cssRules (rule ++ '}' :: []) = [rule] := by
  unfold cssRules
  rw [split_append_sep '}' _ _ hrule]
  have h1 : trim rule ≠ [] := trim_ne_nil_of_mem '{' rule (by decide) hopen
  have h2 : includes rule "\x7b".toList = true := includes_singleton '{' rule hopen
  have h3 : split '}' [] = [[]] := rfl
  rw [h3, List.filter_cons, List.filter_cons]
  simp only [ne_eq, h1, not_false_eq_true, decide_True, h2, Bool.and_self, if_true, trim_nil,
    not_true_eq_false, decide_False, Bool.false_and, Bool.false_eq_true, if_false,
    List.filter_nil]

/-- C5. Let `s` and `d` hold no brace, let `d` hold no newline and neither `/*`
nor `*/`, be non-blank, hold exactly one colon, and let its trimmed form not
begin with `*`.  Then the report of `validateCSS` on `s { d }` is empty when the
trimmed `d` ends in a semicolon, and otherwise is exactly one missing-semicolon
error quoting the trimmed `d`. -/
theorem validateCSS_missing_semicolon (s d : Str)
    (hs : '{' ∉ s ∧ '}' ∉ s)
    (hd : '{' ∉ d ∧ '}' ∉ d ∧ '\n' ∉ d)
    (hopen : includes d "/*".toList = false) (hclose : includes d "*/".toList = false)
    (hnb : trim d ≠ [])
    (hcolon : countChar ':' d = 1)
    (hstar : startsWith (trim d) "*".toList = false) :
    cssErrors (s ++ " \x7b ".toList ++ d ++ " \x7d".toList) =
      (if endsWith (trim d) ";".toList = true then []
       else ["Missing semicolon in declaration: \"".toList ++ trim d ++ "\"".toList]) := by
  rw [padded_eq]
  have hrule : '}' ∉ s ++ ' ' :: ('{' :: (' ' :: (d ++ [' ']))) := by
    simp only [List.mem_append, List.mem_cons, List.mem_singleton, List.not_mem_nil, not_or]
    exact ⟨hs.2, by decide, by decide, by decide, hd.2.1, by decide, not_false⟩
  have hmem : '{' ∈ s ++ ' ' :: ('{' :: (' ' :: (d ++ [' ']))) := by simp
  have hc1 : countChar '{' ((s ++ ' ' :: ('{' :: (' ' :: (d ++ [' '])))) ++ '}' :: []) = 1 := by
    unfold countChar
    simp [List.count_append, List.count_cons, List.count_eq_zero_of_not_mem hs.1,
      List.count_eq_zero_of_not_mem hd.1]
  have hc2 : countChar '}' ((s ++ ' ' :: ('{' :: (' ' :: (d ++ [' '])))) ++ '}' :: []) = 1 := by
    unfold countChar
    simp [List.count_append, List.count_cons, List.count_eq_zero_of_not_mem hs.2,
      List.count_eq_zero_of_not_mem hd.2.1]
  unfold cssErrors
  simp only [hc1, hc2, ne_eq, not_true_eq_false, if_false, List.nil_append,
    cssRules_single _ hrule hmem, List.flatMap_cons, List.flatMap_nil, List.append_nil,
    ruleErrors_single s d hs.1 hd.1 hd.2.2 hopen]
  rw [List.filter_cons, keepLine_trim d hnb hopen hclose hstar]
  simp only [if_true, List.filter_nil, List.filter_cons,
    lacksSemicolon_trim d hd.1 hcolon]
  by_cases he : endsWith (trim d) ";".toList = true
  · simp only [he, Bool.not_true, Bool.false_eq_true, if_false, if_true, List.map_nil]
  · have hf : endsWith (trim d) ";".toList = false := Bool.eq_false_iff.2 he
    simp only [hf, Bool.not_false, if_true, Bool.false_eq_true, if_false, List.map_cons,
      List.map_nil]

/-- C5, instantiated at `a { color: red }`: exactly one missing-semicolon error,
quoting `color: red`. -/
theorem validateCSS_missing_semicolon_witness :
    cssErrors "a \x7b color: red \x7d".toList =
      ["Missing semicolon in declaration: \"color: red\"".toList] :=
  (validateCSS_missing_semicolon "a".toList "color: red".toList (by decide) (by decide)
    (by decide) (by decide) (by decide) (by decide) (by decide)).trans (by decide)

/-! ## C3: the open-tag scan of `validateHTML` -/

theorem mem_matchAll {α : Type} (matchAt : Str → Option (Nat × α)) (m : α) :
    ∀ (s : Str) (skip : Nat), m ∈ matchAll matchAt skip s →
      ∃ t len, t <:+ s ∧ matchAt t = some (len, m) := by
  intro s
  induction s with
  | nil =>
    intro skip h
    simp [matchAll] at h
  | cons c cs ih =>
    intro skip h
    cases skip with
    | succ k =>
      rw [matchAll] at h
      obtain ⟨t, len, ht, hm⟩ := ih k h
      exact ⟨t, len, ht.trans (List.suffix_cons c cs), hm⟩
    | zero =>
      rw [matchAll] at h
      cases hmatch : matchAt (c :: cs) with
      | none =>
        rw [hmatch] at h
        obtain ⟨t, len, ht, hm⟩ := ih 0 h
        exact ⟨t, len, ht.trans (List.suffix_cons c cs), hm⟩
      | some r =>
        obtain ⟨len, m2⟩ := r
        rw [hmatch] at h
        rcases List.mem_cons.1 h with rfl | h2
        · exact ⟨c :: cs, len, List.suffix_refl _, hmatch⟩
        · obtain ⟨t, len2, ht, hm⟩ := ih (len - 1) h2
          exact ⟨t, len2, ht.trans (List.suffix_cons c cs), hm⟩

theorem matchAll_eq_nil_iff {α : Type} (matchAt : Str → Option (Nat × α)) :
    ∀ s : Str, matchAll matchAt 0 s = [] ↔ ∀ t, t ≠ [] → t <:+ s → matchAt t = none := by
  intro s
  induction s with
  | nil =>
    constructor
    · intro _ t hne hsuf
      exact absurd (List.suffix_nil.1 hsuf) hne
    · intro _
      rfl
  | cons c cs ih =>
    rw [matchAll]
    constructor
    · intro h t hne hsuf
      cases hm : matchAt (c :: cs) with
      | some r =>
        rw [hm] at h
        exact absurd h (List.cons_ne_nil _ _)
      | none =>
        rw [hm] at h
        rcases List.suffix_cons_iff.1 hsuf with rfl | h2
        · exact hm
        · exact (ih.1 h) t hne h2
    · intro h
      have hm : matchAt (c :: cs) = none := h (c :: cs) (List.cons_ne_nil _ _) (List.suffix_refl _)
      rw [hm]
      exact ih.2 (fun t hne hsuf => h t hne (hsuf.trans (List.suffix_cons c cs)))

theorem dropWhile_head_not {p : Char → Bool} {l : Str} {x : Char} {xs : Str}
    (h : l.dropWhile p = x :: xs) : p x = false := by
  induction l with
  | nil => simp at h
  | cons a as ih =>
    by_cases ha : p a = true
    · rw [List.dropWhile_cons_of_pos ha] at h
      exact ih h
    · rw [List.dropWhile_cons_of_neg ha] at h
      injection h with h1 _
      rw [← h1]
      exact Bool.eq_false_iff.2 ha

theorem openTagAt_shape (t tag : Str) (len : Nat) (h : openTagAt t = some (len, tag)) :
    tag <+: t ∧ ∃ c body, tag = '<' :: c :: (body ++ ['>']) ∧ c ≠ '/' ∧ '>' ∉ body := by
  unfold openTagAt at h
  split at h
  · rename_i c rest
    split at h
    · simp at h
    · split at h
      · simp at h
      · rename_i x xs hdrop
        simp only [Option.some.injEq, Prod.mk.injEq] at h
        obtain ⟨_, rfl⟩ := h
        have hx : x = '>' := by
          have := dropWhile_head_not hdrop
          simpa using this
        subst hx
        refine ⟨?_, c, rest.takeWhile (fun x => x != '>'), rfl, by assumption, ?_⟩
        · refine ⟨xs, ?_⟩
          have := List.takeWhile_append_dropWhile (fun x => x != '>') rest
          rw [hdrop] at this
          simp only [List.cons_append, List.append_assoc, List.nil_append]
          rw [this]
        · intro hm
          have := List.mem_takeWhile_imp hm
          simp at this
  · simp at h

theorem firstMatch_tagNameAt_ne_nil (tag w : Str) (h : firstMatch tagNameAt tag = some w) :
    w ≠ [] := by
  induction tag with
  | nil => simp [firstMatch] at h
  | cons c cs ih =>
    rw [firstMatch] at h
    cases hm : tagNameAt (c :: cs) with
    | none =>
      rw [hm] at h
      exact ih h
    | some v =>
      rw [hm] at h
      simp only [Option.some.injEq] at h
      subst h
      unfold tagNameAt at hm
      split at hm
      · split at hm
        · simp at hm
        · simp only [Option.some.injEq] at hm
          rw [← hm]
          simp
      · simp at hm

theorem tagName_ne_nil (tag name : Str) (h : tagName tag = some name) : name ≠ [] := by
  unfold tagName at h
  cases hf : firstMatch tagNameAt tag with
  | none => rw [hf] at h; simp at h
  | some w =>
    rw [hf] at h
    simp only [Option.map_some', Option.some.injEq] at h
    rw [← h]
    have := firstMatch_tagNameAt_ne_nil tag w hf
    unfold toLowerCase
    simpa using this

theorem openTagError_eq (html tag : Str) :
    openTagError html tag =
      if lacksClosingTag html tag = true
      then some ("Missing closing tag for <".toList ++ (tagName tag).getD [] ++ ">".toList)
      else none := by
  unfold openTagError lacksClosingTag
  cases hn : tagName tag with
  | none => simp only [Bool.false_eq_true, if_false]
  | some name =>
    have hne := tagName_ne_nil tag name hn
    simp only [Option.getD_some]
    by_cases h1 : selfClosingTags.contains name = true <;>
      by_cases h2 : endsWith tag "/>".toList = true <;>
      by_cases h3 : includes html ("</".toList ++ name ++ ">".toList) = true <;>
      simp only [h1, h2, h3, hne, ne_eq, not_false_eq_true, decide_True, Bool.not_true,
        Bool.not_false, Bool.and_true, Bool.and_false, Bool.true_and, Bool.false_and,
        Bool.false_eq_true, if_false, if_true, Bool.and_self, Bool.not_eq_true]

theorem filterMap_ite {α β : Type} (p : α → Bool) (g : α → β) (l : List α) :
    l.filterMap (fun x => if p x = true then some (g x) else none) = (l.filter p).map g := by
  induction l with
  | nil => rfl
  | cons a as ih =>
    by_cases h : p a = true
    · simp [List.filterMap_cons, h, ih]
    · simp [List.filterMap_cons, h, ih]

theorem openTagErrors_eq (html : Str) :
    openTagErrors html =
      ((openTags html).filter (lacksClosingTag html)).map
        (fun tag => "Missing closing tag for <".toList ++ (tagName tag).getD [] ++ ">".toList) := by
  unfold openTagErrors
  rw [← filterMap_ite]
  congr 1
  funext tag
  exact openTagError_eq html tag

theorem rootTagErrors_mem (html e : Str) (h : e ∈ rootTagErrors html) :
    e = "Missing closing </html> tag".toList ∨ e = "Missing closing </head> tag".toList ∨
      e = "Missing closing </body> tag".toList := by
  unfold rootTagErrors at h
  split at h
  · simp only [List.mem_append] at h
    rcases h with (h | h) | h
    · split at h
      · exact Or.inl (List.mem_singleton.1 h)
      · exact absurd h (List.not_mem_nil _)
    · split at h
      · exact Or.inr (Or.inl (List.mem_singleton.1 h))
      · exact absurd h (List.not_mem_nil _)
    · split at h
      · exact Or.inr (Or.inr (List.mem_singleton.1 h))
      · exact absurd h (List.not_mem_nil _)
  · exact absurd h (List.not_mem_nil _)

theorem emptyAttrErrors_mem (html e : Str) (h : e ∈ emptyAttrErrors html) :
    e = "Empty class attribute found".toList ∨ e = "Empty id attribute found".toList := by
  unfold emptyAttrErrors at h
  simp only [List.mem_append] at h
  rcases h with h | h
  · split at h
    · exact Or.inl (List.mem_singleton.1 h)
    · exact absurd h (List.not_mem_nil _)
  · split at h
    · exact Or.inr (List.mem_singleton.1 h)
    · exact absurd h (List.not_mem_nil _)

theorem duplicateIdErrors_eq (html : Str) :
    duplicateIdErrors html =
      if (duplicateIds (ids html)).length > 0 then
        ["Duplicate ID(s) found: ".toList ++ join ", ".toList (newSet (duplicateIds (ids html)))]
      else [] := by
  unfold duplicateIdErrors ids
  cases h : idMatches html with
  | nil => rfl
  | cons m ms => rfl

theorem filter_eq_nil_of_forall {p : Str → Bool} {l : List Str}
    (h : ∀ e ∈ l, p e = false) : l.filter p = [] := by
  rw [List.filter_eq_nil_iff]
  intro e he
  rw [h e he]
  exact Bool.false_ne_true

theorem filter_eq_self_of_forall {p : Str → Bool} {l : List Str}
    (h : ∀ e ∈ l, p e = true) : l.filter p = l :=
  List.filter_eq_self.2 h

theorem isMissingTag_message (x : Str) :
    isMissingTag ("Missing closing tag for <".toList ++ x ++ ">".toList) = true := by
  rw [List.append_assoc]
  exact startsWith_append_left _ _

theorem isMissingTag_duplicate (x : Str) :
    isMissingTag ("Duplicate ID(s) found: ".toList ++ x) = false := by
  have h : "Duplicate ID(s) found: ".toList = 'D' :: "uplicate ID(s) found: ".toList := rfl
  have h2 : "Missing closing tag for <".toList = 'M' :: "issing closing tag for <".toList := rfl
  unfold isMissingTag startsWith
  rw [h, h2, List.cons_append, List.isPrefixOf]
  simp only [Bool.and_eq_false_imp, beq_iff_eq]
  intro hc
  exact absurd hc (by decide)

theorem isDuplicateId_message (x : Str) :
    isDuplicateId ("Duplicate ID(s) found: ".toList ++ x) = true :=
  startsWith_append_left _ _

theorem isDuplicateId_missing (x : Str) :
    isDuplicateId ("Missing closing tag for <".toList ++ x) = false := by
  have h : "Duplicate ID(s) found: ".toList = 'D' :: "uplicate ID(s) found: ".toList := rfl
  have h2 : "Missing closing tag for <".toList = 'M' :: "issing closing tag for <".toList := rfl
  unfold isDuplicateId startsWith
  rw [h, h2, List.cons_append, List.isPrefixOf]
  simp only [Bool.and_eq_false_imp, beq_iff_eq]
  intro hc
  exact absurd hc (by decide)

/-! ## C4: the duplicate-id check of `validateHTML` -/

theorem beq_inst (a b : Str) : (@BEq.beq Str instBEqOfDecidableEq a b) = (a == b) := by
  show decide (a = b) = (a == b)
  by_cases h : a = b
  · subst h
    rw [beq_self_eq_true]
    exact decide_eq_true rfl
  · rw [beq_eq_false_iff_ne.2 h]
    exact decide_eq_false h

theorem count_inst (v : Str) (xs : List Str) :
    @List.count Str instBEqOfDecidableEq v xs = List.count v xs := by
  induction xs with
  | nil => rfl
  | cons x xs ih =>
    rw [@List.count_cons Str instBEqOfDecidableEq, ih, beq_inst, List.count_cons]

theorem indexOf_inst (v : Str) (xs : List Str) :
    @List.indexOf Str instBEqOfDecidableEq v xs = List.indexOf v xs := by
  induction xs with
  | nil => rfl
  | cons x xs ih =>
    rw [@List.indexOf_cons Str x xs v instBEqOfDecidableEq, ih, beq_inst, List.indexOf_cons]

theorem nodup_iff_count (xs : List Str) : xs.Nodup ↔ ∀ v, xs.count v ≤ 1 := by
  rw [List.nodup_iff_count_le_one]
  simp only [count_inst]

theorem duplicates_from (before : List Str) :
    ∀ xs : List Str,
      ((List.enumFrom before.length xs).filter
          (fun p => indexOf (before ++ xs) p.2 != p.1)).map Prod.snd =
        repeats before xs
  | [] => rfl
  | x :: xs => by
    have ih := duplicates_from (before ++ [x]) xs
    rw [List.length_append, List.length_singleton, List.append_assoc, List.singleton_append] at ih
    rw [List.enumFrom_cons, List.filter_cons, repeats, ← ih]
    by_cases hx : x ∈ before
    · have h1 : indexOf (before ++ x :: xs) x ≠ before.length := by
        unfold indexOf
        rw [← indexOf_inst, List.indexOf_append_of_mem hx]
        exact Nat.ne_of_lt (List.indexOf_lt_length.2 hx)
      simp only [bne_iff_ne, ne_eq, h1, not_false_eq_true, if_true, List.map_cons, hx,
        List.singleton_append]
    · have h1 : indexOf (before ++ x :: xs) x = before.length := by
        unfold indexOf
        rw [← indexOf_inst, List.indexOf_append_of_not_mem hx, List.indexOf_cons_self,
          Nat.add_zero]
      simp only [bne_iff_ne, ne_eq, h1, not_true_eq_false, if_false, hx, List.nil_append]

theorem duplicateIds_eq (xs : List Str) : duplicateIds xs = repeats [] xs := by
  have := duplicates_from [] xs
  simpa [duplicateIds, List.enum] using this

theorem mem_repeats (v : Str) :
    ∀ (xs before : List Str),
      v ∈ repeats before xs ↔ (v ∈ before ∧ v ∈ xs) ∨ 2 ≤ xs.count v
  | [], before => by simp [repeats]
  | x :: xs, before => by
    rw [repeats, List.mem_append, mem_repeats v xs (before ++ [x])]
    by_cases hvx : v = x
    · subst hvx
      have hc : (v :: xs).count v = xs.count v + 1 := List.count_cons_self v xs
      have hpos : v ∈ xs ↔ 1 ≤ xs.count v := by
        rw [← List.count_pos_iff]
        exact Iff.rfl
      by_cases hb : v ∈ before
      · simp only [hb, if_true, List.mem_singleton, true_or, List.mem_append, true_and,
          List.mem_cons]
      · simp only [hb, if_false, List.not_mem_nil, false_or, List.mem_append,
          List.mem_singleton, or_true, true_and, false_and, hc, hpos]
        omega
    · have hc : (x :: xs).count v = xs.count v := by
        rw [List.count_cons_of_ne hvx]
      have hm : v ∉ (if x ∈ before then [x] else []) := by
        split
        · simpa using hvx
        · simp
      simp only [hm, false_or, List.mem_append, List.mem_singleton, hvx, or_false,
        List.mem_cons, hc, List.not_mem_nil]

theorem newSet_fold (acc : List Str) :
    ∀ xs : List Str, acc.Nodup →
      (xs.foldl (fun acc x => if x ∈ acc then acc else acc ++ [x]) acc).Nodup ∧
      ∀ v, v ∈ xs.foldl (fun acc x => if x ∈ acc then acc else acc ++ [x]) acc ↔
        v ∈ acc ∨ v ∈ xs := by
  intro xs
  induction xs generalizing acc with
  | nil =>
    intro h
    simp [h]
  | cons x xs ih =>
    intro h
    rw [List.foldl_cons]
    by_cases hx : x ∈ acc
    · rw [if_pos hx]
      obtain ⟨h1, h2⟩ := ih acc h
      refine ⟨h1, fun v => ?_⟩
      rw [h2 v, List.mem_cons]
      constructor
      · rintro (h | h)
        · exact Or.inl h
        · exact Or.inr (Or.inr h)
      · rintro (h | rfl | h)
        · exact Or.inl h
        · exact Or.inl hx
        · exact Or.inr h
    · rw [if_neg hx]
      have hnd : (acc ++ [x]).Nodup := by
        rw [List.nodup_append]
        refine ⟨h, List.nodup_singleton x, ?_⟩
        intro a ha hb
        rw [List.mem_singleton] at hb
        subst hb
        exact hx ha
      obtain ⟨h1, h2⟩ := ih (acc ++ [x]) hnd
      refine ⟨h1, fun v => ?_⟩
      rw [h2 v, List.mem_append, List.mem_singleton, List.mem_cons, or_assoc]

theorem newSet_nodup (xs : List Str) : (newSet xs).Nodup :=
  (newSet_fold [] xs List.nodup_nil).1

theorem mem_newSet (xs : List Str) (v : Str) : v ∈ newSet xs ↔ v ∈ xs := by
  have := (newSet_fold [] xs List.nodup_nil).2 v
  simpa [newSet] using this

theorem fold_repeats (xs : List Str) :
    ∀ before listed : List Str,
      (repeats before xs).foldl (fun acc x => if x ∈ acc then acc else acc ++ [x]) listed =
        firstRepetitions before listed xs := by
  induction xs with
  | nil =>
    intro before listed
    rfl
  | cons x xs ih =>
    intro before listed
    rw [repeats, List.foldl_append, firstRepetitions, ← ih]
    congr 1
    by_cases hb : x ∈ before <;> by_cases hl : x ∈ listed <;>
      simp [hb, hl]

theorem mem_duplicateIds (xs : List Str) (v : Str) : v ∈ duplicateIds xs ↔ 2 ≤ xs.count v := by
  rw [duplicateIds_eq, mem_repeats]
  simp

theorem duplicateIds_length_pos (xs : List Str) :
    (duplicateIds xs).length > 0 ↔ ¬ xs.Nodup := by
  rw [nodup_iff_count, gt_iff_lt, List.length_pos_iff_exists_mem]
  constructor
  · rintro ⟨v, hv⟩ hall
    have := (mem_duplicateIds xs v).1 hv
    have := hall v
    omega
  · intro h
    push_neg at h
    obtain ⟨v, hv⟩ := h
    exact ⟨v, (mem_duplicateIds xs v).2 (by omega)⟩

/-- C4. The errors `validateHTML` collects hold a duplicate-id error exactly
when some value occurs more than once among the id values found; there is then
exactly one such error, and it lists the repeated values, each once however
often it occurs, in the order of their first repetition.  For
`<div id="a"></div><span id="a"></span>` the report is one duplicate-id
error listing `a` once. -/
theorem validateHTML_duplicate_ids (html : Str) :
    (htmlErrors html).filter isDuplicateId =
        (if (ids html).Nodup then []
         else ["Duplicate ID(s) found: ".toList ++
            join ", ".toList (newSet (duplicateIds (ids html)))]) ∧
      ((∃ e ∈ htmlErrors html, isDuplicateId e = true) ↔ ∃ v, 2 ≤ (ids html).count v) ∧
      (newSet (duplicateIds (ids html))).Nodup ∧
      (∀ v, v ∈ newSet (duplicateIds (ids html)) ↔ 2 ≤ (ids html).count v) ∧
      newSet (duplicateIds (ids html)) = firstRepetitions [] [] (ids html) ∧
      htmlErrors "<div id=\"a\"></div><span id=\"a\"></span>".toList =
        ["Duplicate ID(s) found: a".toList] := by
  have hfilter : (htmlErrors html).filter isDuplicateId =
        (if (ids html).Nodup then []
         else ["Duplicate ID(s) found: ".toList ++
            join ", ".toList (newSet (duplicateIds (ids html)))]) := by
    have hroot : (rootTagErrors html).filter isDuplicateId = [] := by
      apply filter_eq_nil_of_forall
      intro e he
      rcases rootTagErrors_mem html e he with rfl | rfl | rfl <;> decide
    have hempty : (emptyAttrErrors html).filter isDuplicateId = [] := by
      apply filter_eq_nil_of_forall
      intro e he
      rcases emptyAttrErrors_mem html e he with rfl | rfl <;> decide
    have hopen : (openTagErrors html).filter isDuplicateId = [] := by
      apply filter_eq_nil_of_forall
      intro e he
      rw [openTagErrors_eq, List.mem_map] at he
      obtain ⟨tag, _, rfl⟩ := he
      rw [List.append_assoc]
      exact isDuplicateId_missing _
    unfold htmlErrors
    rw [List.filter_append, List.filter_append, List.filter_append, hroot, hempty, hopen,
      List.nil_append, List.nil_append, duplicateIdErrors_eq]
    by_cases hnd : (ids html).Nodup
    · have : ¬ (duplicateIds (ids html)).length > 0 := by
        rw [duplicateIds_length_pos]
        exact not_not.2 hnd
      rw [if_neg this, if_pos hnd]
      rfl
    · have : (duplicateIds (ids html)).length > 0 := (duplicateIds_length_pos _).2 hnd
      rw [if_pos this, if_neg hnd, List.filter_cons, isDuplicateId_message]
      rfl
  refine ⟨hfilter, ?_, newSet_nodup _, ?_, ?_, by decide⟩
  · have hiff : (∃ v, 2 ≤ (ids html).count v) ↔ ¬ (ids html).Nodup := by
      rw [nodup_iff_count]
      push_neg
      constructor
      · rintro ⟨v, hv⟩
        exact ⟨v, by omega⟩
      · rintro ⟨v, hv⟩
        exact ⟨v, by omega⟩
    rw [hiff]
    constructor
    · rintro ⟨e, he, hm⟩ hnd
      have : e ∈ (htmlErrors html).filter isDuplicateId := List.mem_filter.2 ⟨he, hm⟩
      rw [hfilter, if_pos hnd] at this
      exact absurd this (List.not_mem_nil _)
    · intro hnd
      have : ("Duplicate ID(s) found: ".toList ++
            join ", ".toList (newSet (duplicateIds (ids html)))) ∈
          (htmlErrors html).filter isDuplicateId := by
        rw [hfilter, if_neg hnd]
        exact List.mem_singleton_self _
      exact ⟨_, (List.mem_filter.1 this).1, (List.mem_filter.1 this).2⟩
  · intro v
    rw [mem_newSet, mem_duplicateIds]
  · rw [duplicateIds_eq]
    exact fold_repeats (ids html) [] []

/-! ## C11: the warning notification of `showCodeError` -/

theorem intercalate_cons_cons (sep x y : Str) (ys : List Str) :
    join sep (x :: y :: ys) = x ++ sep ++ join sep (y :: ys) := by
  simp [join, List.intercalate, List.intersperse, List.append_assoc]

theorem split_join (sep : Char) :
    ∀ xs : List Str, xs ≠ [] → (∀ x ∈ xs, sep ∉ x) → split sep (join [sep] xs) = xs
  | [], h, _ => absurd rfl h
  | [x], _, hx => by
    have : join [sep] [x] = x := by simp [join, List.intercalate, List.intersperse]
    rw [this]
    exact split_of_not_mem sep x (hx x (List.mem_singleton_self x))
  | x :: y :: ys, _, hx => by
    rw [intercalate_cons_cons, List.append_assoc, List.singleton_append,
      split_append_sep sep x _ (hx x (List.mem_cons_self x _)),
      split_join sep (y :: ys) (List.cons_ne_nil _ _)
        (fun z hz => hx z (List.mem_cons_of_mem x hz))]

theorem digitChar_ne_newline : ∀ d : Nat, d < 10 → Nat.digitChar d ≠ '\n' := by
  decide

theorem toDigitsCore_no_newline :
    ∀ (fuel n : Nat) (acc : List Char), '\n' ∉ acc → '\n' ∉ Nat.toDigitsCore 10 fuel n acc
  | 0, _, acc, h => by
    simpa [Nat.toDigitsCore] using h
  | fuel + 1, n, acc, h => by
    have hacc : '\n' ∉ Nat.digitChar (n % 10) :: acc := by
      intro hm
      rcases List.mem_cons.1 hm with h1 | h1
      · exact digitChar_ne_newline (n % 10) (Nat.mod_lt n (by decide)) h1.symm
      · exact h h1
    rw [Nat.toDigitsCore]
    split
    · exact hacc
    · exact toDigitsCore_no_newline fuel _ _ hacc

theorem numText_no_newline (n : Nat) : '\n' ∉ numText n :=
  toDigitsCore_no_newline _ _ [] (List.not_mem_nil _)

theorem join_singleton (sep x : Str) : join sep [x] = x := by
  simp [join, List.intercalate, List.intersperse]

theorem join_cons_of_ne_nil (sep x : Str) (ys : List Str) (h : ys ≠ []) :
    join sep (x :: ys) = x ++ sep ++ join sep ys := by
  cases ys with
  | nil => exact absurd rfl h
  | cons y ys => exact intercalate_cons_cons sep x y ys

theorem join_append_singleton (sep m : Str) :
    ∀ xs : List Str, xs ≠ [] → join sep (xs ++ [m]) = join sep xs ++ sep ++ m
  | [], h => absurd rfl h
  | [x], _ => by
    rw [List.singleton_append, intercalate_cons_cons, join_singleton, join_singleton]
  | x :: y :: ys, _ => by
    rw [List.cons_append, join_cons_of_ne_nil sep x _ (by simp),
      join_append_singleton sep m (y :: ys) (List.cons_ne_nil _ _),
      intercalate_cons_cons]
    simp only [List.append_assoc]

theorem take_min_length (errors : List Str) :
    errors.take (min errors.length 5) = errors.take 5 := by
  by_cases h : errors.length ≤ 5
  · rw [Nat.min_eq_left h, List.take_of_length_le h, List.take_of_length_le (Nat.le_refl _)]
  · rw [Nat.min_eq_right (by omega)]

/-- C11. For a non-empty list of `n` errors the notification `showCodeError`
adds is a warning whose text is, joined by newlines, the title
`<type> Issues Detected`, one bulleted line for each of the first `min n 5`
errors in report order, and the closing line `... and N more issues` exactly
when `n > 5`, with `N = n - 5`, so that the errors listed and `N` add up to `n`.
When neither the label nor an error holds a newline, these are exactly the lines
of the text. -/
theorem showCodeError_notification (st : State) (type : Str) (errors : List Str)
    (hne : errors ≠ []) :
    (showCodeError st type errors).notifications =
        st.notifications ++
          [⟨join "\n".toList (warningLines type errors), "warning".toList, 8000⟩] ∧
      (errors.take (min errors.length 5)).length = min errors.length 5 ∧
      (errors.length > 5 → min errors.length 5 + (errors.length - 5) = errors.length) ∧
      ('\n' ∉ type → (∀ e ∈ errors, '\n' ∉ e) →
        split '\n' (join "\n".toList (warningLines type errors)) = warningLines type errors) := by
  have hbul : (errors.take 5).map bullet ≠ [] := by
    cases errors with
    | nil => exact absurd rfl hne
    | cons e es => simp
  refine ⟨?_, ?_, ?_, ?_⟩
  · unfold showCodeError showNotification warningLines
    dsimp only
    rw [take_min_length]
    have hmap : (errors.take 5).map (fun error => "• ".toList ++ error) =
        (errors.take 5).map bullet := rfl
    rw [hmap]
    congr 3
    by_cases h5 : errors.length > 5
    · rw [if_pos h5, if_pos h5, join_cons_of_ne_nil _ _ _ (by simp [hbul]),
        join_append_singleton _ _ _ hbul]
      unfold moreIssues
      have hlit : "\n... and ".toList = "\n".toList ++ "... and ".toList := rfl
      rw [hlit]
      simp only [List.append_assoc]
    · rw [if_neg h5, if_neg h5, List.append_nil, List.append_nil,
        join_cons_of_ne_nil _ _ _ hbul]
  · rw [List.length_take]
    omega
  · intro h5
    omega
  · intro htype herr
    have hsep : "\n".toList = ['\n'] := rfl
    rw [hsep]
    apply split_join '\n' _ (List.cons_ne_nil _ _)
    intro line hline
    unfold warningLines at hline
    rcases List.mem_cons.1 hline with rfl | hline
    · intro hm
      rcases List.mem_append.1 hm with h1 | h1
      · exact htype h1
      · exact absurd h1 (by decide)
    · rcases List.mem_append.1 hline with hb | hs
      · obtain ⟨e, he, rfl⟩ := List.mem_map.1 hb
        intro hm
        unfold bullet at hm
        rcases List.mem_append.1 hm with h1 | h1
        · exact absurd h1 (by decide)
        · exact herr e (List.mem_of_mem_take he) h1
      · split at hs
        · rw [List.mem_singleton] at hs
          subst hs
          intro hm
          unfold moreIssues at hm
          rcases List.mem_append.1 hm with h1 | h1
          · rcases List.mem_append.1 h1 with h2 | h2
            · exact absurd h2 (by decide)
            · exact numText_no_newline _ h2
          · exact absurd h1 (by decide)
        · exact absurd hs (List.not_mem_nil _)

/-- C11, instantiated at a report of six errors: five bulleted lines and the
closing line counting one more. -/
theorem showCodeError_notification_witness :
    (showCodeError (sampleState [] [] []) "CSS".toList
        ["a".toList, "b".toList, "c".toList, "d".toList, "e".toList, "f".toList]).notifications =
      [⟨"CSS Issues Detected\n• a\n• b\n• c\n• d\n• e\n... and 1 more issues".toList,
        "warning".toList, 8000⟩] :=
  (showCodeError_notification (sampleState [] [] []) "CSS".toList
    ["a".toList, "b".toList, "c".toList, "d".toList, "e".toList, "f".toList]
    (by decide)).1.trans (by decide)

/-! ## C12: `validateCode` on a blank fragment -/

theorem updateTabErrorIndicator_tabs (st : State) (k : Kind) (b : Bool) :
    (updateTabErrorIndicator st k b).tabs.get k = (st.tabs.get k).map (fun _ => b) ∧
      (∀ k2 : Kind, k2 ≠ k → (updateTabErrorIndicator st k b).tabs.get k2 = st.tabs.get k2) ∧
      (updateTabErrorIndicator st k b).notifications = st.notifications := by
  unfold updateTabErrorIndicator updateGlobalErrorState
  cases h : st.tabs.get k with
  | none =>
    dsimp only
    exact ⟨by rw [h]; rfl, fun _ _ => rfl, rfl⟩
  | some v =>
    dsimp only
    refine ⟨?_, ?_, rfl⟩
    · cases k <;> rfl
    · intro k2 hk
      cases k <;> cases k2 <;> first | rfl | exact absurd rfl hk

/-- C12. When the fragment of a kind is empty or whitespace-only,
`validateCode` on that kind does nothing but `updateTabErrorIndicator(type,
false)`: no validator is consulted, no notification is added, the kind's
has-error flag is cleared, the flags of the other two kinds and the three
fragment texts stay as they were. -/
theorem validateCode_blank (env : Env) (st : State) (type : Kind)
    (hblank : trim (st.editors.get type).value = []) :
    validateCode env st type = updateTabErrorIndicator st type false ∧
      (validateCode env st type).notifications = st.notifications ∧
      (validateCode env st type).tabs.get type = (st.tabs.get type).map (fun _ => false) ∧
      (∀ other : Kind, other ≠ type →
        (validateCode env st type).tabs.get other = st.tabs.get other) ∧
      (validateCode env st type).editors = st.editors := by
  have heq : validateCode env st type = updateTabErrorIndicator st type false := by
    unfold validateCode
    dsimp only
    rw [if_pos hblank]
  obtain ⟨h1, h2, h3⟩ := updateTabErrorIndicator_tabs st type false
  rw [heq]
  exact ⟨rfl, h3, h1, h2, (updateTabErrorIndicator_frame st type false).2.2.2⟩

/-- C12, instantiated: with a whitespace-only css fragment and the css and html
tabs flagged, `validateCode('css')` clears the css flag and keeps the html
flag. -/
theorem validateCode_blank_witness :
    (validateCode sampleEnv
        { sampleState "<p>".toList " \n ".toList [] with
          tabs := ⟨some true, some true, some false⟩, hasErrors := true } Kind.css).tabs =
      ⟨some true, some false, some false⟩ := by
  have h := (validateCode_blank sampleEnv
    { sampleState "<p>".toList " \n ".toList [] with
      tabs := ⟨some true, some true, some false⟩, hasErrors := true } Kind.css (by decide)).1
  rw [h]
  decide

/-! ## C15: the aggregate error flag -/

theorem anyFlag_eq (t : Tabs) :
    decide (([t.html, t.css, t.js].filter (fun x => x == some true)).length > 0) = anyFlag t := by
  obtain ⟨h, c, j⟩ := t
  rcases h with _ | _ | _ <;> rcases c with _ | _ | _ <;> rcases j with _ | _ | _ <;> rfl

theorem updateGlobalErrorState_agree (st : State) :
    (updateGlobalErrorState st).hasErrors = anyFlag (updateGlobalErrorState st).tabs := by
  unfold updateGlobalErrorState
  exact anyFlag_eq st.tabs

theorem updateTabErrorIndicator_agree (st : State) (k : Kind) (b : Bool) :
    (updateTabErrorIndicator st k b).hasErrors =
      anyFlag (updateTabErrorIndicator st k b).tabs := by
  unfold updateTabErrorIndicator
  exact updateGlobalErrorState_agree _

theorem clearErrorIndicators_agree (st : State) :
    (clearErrorIndicators st).hasErrors = anyFlag (clearErrorIndicators st).tabs := by
  unfold clearErrorIndicators anyFlag
  dsimp only
  rcases st.tabs.html with _ | _ <;> rcases st.tabs.css with _ | _ <;>
    rcases st.tabs.js with _ | _ <;> rfl

theorem validateHTML_agree (st : State) (html : Str) :
    (validateHTML st html).hasErrors = anyFlag (validateHTML st html).tabs := by
  unfold validateHTML
  dsimp only
  split <;> exact updateTabErrorIndicator_agree _ _ _

theorem validateCSS_agree (st : State) (css : Str) :
    (validateCSS st css).hasErrors = anyFlag (validateCSS st css).tabs := by
  unfold validateCSS
  split
  · exact updateTabErrorIndicator_agree _ _ _
  · dsimp only
    split <;> exact updateTabErrorIndicator_agree _ _ _

theorem validateJavaScript_agree (env : Env) (st : State) (js : Str) :
    (validateJavaScript env st js).hasErrors = anyFlag (validateJavaScript env st js).tabs := by
  unfold validateJavaScript
  split
  · exact updateTabErrorIndicator_agree _ _ _
  · dsimp only
    split <;> exact updateTabErrorIndicator_agree _ _ _

theorem validateCode_agree (env : Env) (st : State) (k : Kind) :
    (validateCode env st k).hasErrors = anyFlag (validateCode env st k).tabs := by
  unfold validateCode
  dsimp only
  by_cases h : trim (st.editors.get k).value = []
  · rw [if_pos h]
    exact updateTabErrorIndicator_agree _ _ _
  · rw [if_neg h]
    cases k
    · exact validateHTML_agree _ _
    · exact validateCSS_agree _ _
    · exact validateJavaScript_agree _ _ _

theorem runCode_agree (env : Env) (st : State) (h : st.hasErrors = anyFlag st.tabs) :
    (runCode env st).hasErrors = anyFlag (runCode env st).tabs := by
  rw [runCode_eq]
  cases allBlank st
  · simp only [Bool.false_eq_true, if_false]
    unfold runCodeLoad setTimeout updatePreview
    dsimp only
    exact validateCode_agree _ _ _
  · simp only [if_true]
    unfold runCodeDemo showNotification showDemoPreview
    dsimp only
    exact h

theorem clearCode_agree (env : Env) (st : State) :
    (clearCode env st).hasErrors = anyFlag (clearCode env st).tabs := by
  have h := clearErrorIndicators_agree
    (showDemoPreview { st with editors :=
      ((st.editors.setValue .html []).setValue .css []).setValue .js [] })
  unfold clearCode saveToStorage
  dsimp only
  split
  · unfold showNotification hideError
    dsimp only
    exact h
  · unfold showNotification hideError
    dsimp only
    exact h

theorem inputEvent_agree (st : State) (k : Kind) (text : Str)
    (h : st.hasErrors = anyFlag st.tabs) :
    (inputEvent st k text).hasErrors = anyFlag (inputEvent st k text).tabs := by
  unfold inputEvent debounce
  dsimp only
  unfold setTimeout clearTimeout
  dsimp only
  cases st.debounceTimer <;> exact h

theorem apply_agree (env : Env) (st : State) (call : Call)
    (h : st.hasErrors = anyFlag st.tabs) :
    (call.apply env st).hasErrors = anyFlag (call.apply env st).tabs := by
  cases call with
  | validateCode type => exact validateCode_agree env st type
  | validateHTML html => exact validateHTML_agree st html
  | validateCSS css => exact validateCSS_agree st css
  | validateJavaScript js => exact validateJavaScript_agree env st js
  | updateTabErrorIndicator tabType hasError =>
    exact updateTabErrorIndicator_agree st tabType hasError
  | clearErrorIndicators => exact clearErrorIndicators_agree st
  | runCode => exact runCode_agree env st h
  | clearCode => exact clearCode_agree env st
  | input type text => exact inputEvent_agree st type text h

theorem runCalls_agree (env : Env) (calls : List Call) :
    ∀ st : State, st.hasErrors = anyFlag st.tabs →
      (runCalls env st calls).hasErrors = anyFlag (runCalls env st calls).tabs := by
  induction calls with
  | nil =>
    intro st h
    exact h
  | cons call rest ih =>
    intro st h
    unfold runCalls
    rw [List.foldl_cons]
    exact ih _ (apply_agree env st call h)

theorem isSome_map_const (o : Option Bool) (b : Bool) :
    (o.map (fun _ => b)).isSome = o.isSome := by
  cases o <;> rfl

theorem updateTabErrorIndicator_present (st : State) (k : Kind) (b : Bool) (k2 : Kind) :
    ((updateTabErrorIndicator st k b).tabs.get k2).isSome = (st.tabs.get k2).isSome := by
  obtain ⟨h1, h2, _⟩ := updateTabErrorIndicator_tabs st k b
  by_cases hk : k2 = k
  · subst hk
    rw [h1, isSome_map_const]
  · rw [h2 k2 hk]

theorem clearErrorIndicators_present (st : State) (k2 : Kind) :
    ((clearErrorIndicators st).tabs.get k2).isSome = (st.tabs.get k2).isSome := by
  unfold clearErrorIndicators
  cases k2 <;> exact isSome_map_const _ _

theorem validateHTML_flag (st : State) (html : Str) :
    (validateHTML st html).tabs.get Kind.html =
        (st.tabs.get Kind.html).map (fun _ => decide (htmlErrors html ≠ [])) ∧
      ∀ k2 : Kind, ((validateHTML st html).tabs.get k2).isSome = (st.tabs.get k2).isSome := by
  unfold validateHTML
  dsimp only
  by_cases h : (htmlErrors html).length > 0
  · have hne : htmlErrors html ≠ [] := List.ne_nil_of_length_pos h
    rw [if_pos h]
    refine ⟨?_, fun k2 => updateTabErrorIndicator_present _ _ _ k2⟩
    rw [(updateTabErrorIndicator_tabs _ Kind.html true).1, decide_eq_true hne]
    rfl
  · have he : htmlErrors html = [] := by
      cases hl : htmlErrors html with
      | nil => rfl
      | cons a as => rw [hl] at h; exact absurd (Nat.succ_pos _) h
    rw [if_neg h]
    refine ⟨?_, fun k2 => updateTabErrorIndicator_present _ _ _ k2⟩
    rw [(updateTabErrorIndicator_tabs _ Kind.html false).1, decide_eq_false (not_not.2 he)]

theorem validateCSS_flag (st : State) (css : Str) :
    (validateCSS st css).tabs.get Kind.css =
        (st.tabs.get Kind.css).map (fun _ => decide (cssReport css ≠ [])) ∧
      ∀ k2 : Kind, ((validateCSS st css).tabs.get k2).isSome = (st.tabs.get k2).isSome := by
  unfold validateCSS cssReport
  by_cases hb : (decide (css = []) || decide (trim css = [])) = true
  · rw [if_pos hb, if_pos hb]
    refine ⟨?_, fun k2 => updateTabErrorIndicator_present _ _ _ k2⟩
    rw [(updateTabErrorIndicator_tabs _ Kind.css false).1]
    rfl
  · rw [if_neg hb, if_neg hb]
    dsimp only
    by_cases h : (cssErrors css).length > 0
    · have hne : cssErrors css ≠ [] := List.ne_nil_of_length_pos h
      rw [if_pos h]
      refine ⟨?_, fun k2 => updateTabErrorIndicator_present _ _ _ k2⟩
      rw [(updateTabErrorIndicator_tabs _ Kind.css true).1, decide_eq_true hne]
      rfl
    · have he : cssErrors css = [] := by
        cases hl : cssErrors css with
        | nil => rfl
        | cons a as => rw [hl] at h; exact absurd (Nat.succ_pos _) h
      rw [if_neg h]
      refine ⟨?_, fun k2 => updateTabErrorIndicator_present _ _ _ k2⟩
      rw [(updateTabErrorIndicator_tabs _ Kind.css false).1, decide_eq_false (not_not.2 he)]

theorem validateJavaScript_flag (env : Env) (st : State) (js : Str) :
    (validateJavaScript env st js).tabs.get Kind.js =
        (st.tabs.get Kind.js).map (fun _ => decide (jsReport env js ≠ [])) ∧
      ∀ k2 : Kind,
        ((validateJavaScript env st js).tabs.get k2).isSome = (st.tabs.get k2).isSome := by
  unfold validateJavaScript jsReport
  by_cases hb : (decide (js = []) || decide (trim js = [])) = true
  · rw [if_pos hb, if_pos hb]
    refine ⟨?_, fun k2 => updateTabErrorIndicator_present _ _ _ k2⟩
    rw [(updateTabErrorIndicator_tabs _ Kind.js false).1]
    rfl
  · rw [if_neg hb, if_neg hb]
    dsimp only
    by_cases h : (jsErrors env.compile js).length > 0
    · have hne : jsErrors env.compile js ≠ [] := List.ne_nil_of_length_pos h
      rw [if_pos h]
      refine ⟨?_, fun k2 => updateTabErrorIndicator_present _ _ _ k2⟩
      rw [(updateTabErrorIndicator_tabs _ Kind.js true).1, decide_eq_true hne]
      rfl
    · have he : jsErrors env.compile js = [] := by
        cases hl : jsErrors env.compile js with
        | nil => rfl
        | cons a as => rw [hl] at h; exact absurd (Nat.succ_pos _) h
      rw [if_neg h]
      refine ⟨?_, fun k2 => updateTabErrorIndicator_present _ _ _ k2⟩
      rw [(updateTabErrorIndicator_tabs _ Kind.js false).1, decide_eq_false (not_not.2 he)]

theorem validateCode_flag (env : Env) (st : State) (k : Kind) :
    (validateCode env st k).tabs.get k =
        (st.tabs.get k).map (fun _ => decide (codeReport env st k ≠ [])) ∧
      ∀ k2 : Kind, ((validateCode env st k).tabs.get k2).isSome = (st.tabs.get k2).isSome := by
  unfold validateCode codeReport
  dsimp only
  by_cases h : trim (st.editors.get k).value = []
  · rw [if_pos h, if_pos h]
    refine ⟨?_, fun k2 => updateTabErrorIndicator_present _ _ _ k2⟩
    rw [(updateTabErrorIndicator_tabs _ k false).1]
    rfl
  · rw [if_neg h, if_neg h]
    cases k
    · exact validateHTML_flag st _
    · exact validateCSS_flag st _
    · exact validateJavaScript_flag env st _

theorem runCode_present (env : Env) (st : State) (k2 : Kind) :
    ((runCode env st).tabs.get k2).isSome = (st.tabs.get k2).isSome := by
  rw [runCode_eq]
  cases allBlank st
  · simp only [Bool.false_eq_true, if_false]
    unfold runCodeLoad setTimeout updatePreview
    dsimp only
    rw [(validateCode_flag env _ Kind.js).2 k2, (validateCode_flag env _ Kind.css).2 k2,
      (validateCode_flag env _ Kind.html).2 k2, clearErrorIndicators_present]
    rfl
  · simp only [if_true]
    rfl

theorem clearCode_present (env : Env) (st : State) (k2 : Kind) :
    ((clearCode env st).tabs.get k2).isSome = (st.tabs.get k2).isSome := by
  have h := clearErrorIndicators_present
    (showDemoPreview { st with editors :=
      ((st.editors.setValue .html []).setValue .css []).setValue .js [] }) k2
  unfold clearCode saveToStorage
  dsimp only
  split
  · unfold showNotification hideError
    dsimp only
    exact h
  · unfold showNotification hideError
    dsimp only
    exact h

theorem inputEvent_tabs (st : State) (k : Kind) (text : Str) :
    (inputEvent st k text).tabs = st.tabs := by
  unfold inputEvent debounce
  dsimp only
  unfold setTimeout clearTimeout
  dsimp only
  cases st.debounceTimer <;> rfl

theorem apply_present (env : Env) (st : State) (call : Call) (k2 : Kind) :
    ((call.apply env st).tabs.get k2).isSome = (st.tabs.get k2).isSome := by
  cases call with
  | validateCode type => exact (validateCode_flag env st type).2 k2
  | validateHTML html => exact (validateHTML_flag st html).2 k2
  | validateCSS css => exact (validateCSS_flag st css).2 k2
  | validateJavaScript js => exact (validateJavaScript_flag env st js).2 k2
  | updateTabErrorIndicator tabType hasError =>
    exact updateTabErrorIndicator_present st tabType hasError k2
  | clearErrorIndicators => exact clearErrorIndicators_present st k2
  | runCode => exact runCode_present env st k2
  | clearCode => exact clearCode_present env st k2
  | input type text =>
    show ((inputEvent st type text).tabs.get k2).isSome = _
    rw [inputEvent_tabs]

theorem runCalls_present (env : Env) (calls : List Call) (k2 : Kind) :
    ∀ st : State, ((runCalls env st calls).tabs.get k2).isSome = (st.tabs.get k2).isSome := by
  induction calls with
  | nil =>
    intro st
    rfl
  | cons call rest ih =>
    intro st
    unfold runCalls
    rw [List.foldl_cons]
    exact (ih _).trans (apply_present env st call k2)

/-- C15. Start from an editor in which no tab is flagged and `hasErrors` is
false, and make any sequence of calls of `validateCode`, `validateHTML`,
`validateCSS`, `validateJavaScript`, `updateTabErrorIndicator`,
`clearErrorIndicators`, `runCode`, `clearCode` and of edits.  Afterwards
`hasErrors` is true exactly when one of the three tabs is flagged, and a tab
button that existed at the start still exists.  In every state, a validator call
on a kind whose tab button exists leaves that tab flagged exactly when the
call's report is non-empty. -/
theorem hasErrors_invariant (env : Env) (st0 : State) (calls : List Call)
    (hflags : anyFlag st0.tabs = false) (herrors : st0.hasErrors = false) :
    (runCalls env st0 calls).hasErrors = anyFlag (runCalls env st0 calls).tabs ∧
      (∀ k : Kind, ((runCalls env st0 calls).tabs.get k).isSome = (st0.tabs.get k).isSome) ∧
      (∀ (st : State) (html : Str), (validateHTML st html).tabs.get Kind.html =
        (st.tabs.get Kind.html).map (fun _ => decide (htmlErrors html ≠ []))) ∧
      (∀ (st : State) (css : Str), (validateCSS st css).tabs.get Kind.css =
        (st.tabs.get Kind.css).map (fun _ => decide (cssReport css ≠ []))) ∧
      (∀ (st : State) (js : Str), (validateJavaScript env st js).tabs.get Kind.js =
        (st.tabs.get Kind.js).map (fun _ => decide (jsReport env js ≠ []))) ∧
      (∀ (st : State) (k : Kind), (validateCode env st k).tabs.get k =
        (st.tabs.get k).map (fun _ => decide (codeReport env st k ≠ []))) := by
  refine ⟨runCalls_agree env calls st0 (by rw [herrors, hflags]),
    fun k => runCalls_present env calls k st0,
    fun st html => (validateHTML_flag st html).1,
    fun st css => (validateCSS_flag st css).1,
    fun st js => (validateJavaScript_flag env st js).1,
    fun st k => (validateCode_flag env st k).1⟩

/-- C15, instantiated: on the fresh editor, typing `<div>` and validating flags
the html tab and raises `hasErrors`; clearing the code lowers both again. -/
theorem hasErrors_invariant_witness :
    (runCalls sampleEnv (sampleState [] [] [])
        [Call.input Kind.html "<div>".toList, Call.validateCode Kind.html]).hasErrors = true ∧
      (runCalls sampleEnv (sampleState [] [] [])
        [Call.input Kind.html "<div>".toList, Call.validateCode Kind.html]).tabs.html
          = some true ∧
      (runCalls sampleEnv (sampleState [] [] [])
        [Call.input Kind.html "<div>".toList, Call.validateCode Kind.html,
          Call.clearCode]).hasErrors = false := by
  have h1 := (hasErrors_invariant sampleEnv (sampleState [] [] [])
    [Call.input Kind.html "<div>".toList, Call.validateCode Kind.html]
    (by decide) (by decide)).1
  have h2 := (hasErrors_invariant sampleEnv (sampleState [] [] [])
    [Call.input Kind.html "<div>".toList, Call.validateCode Kind.html, Call.clearCode]
    (by decide) (by decide)).1
  refine ⟨h1.trans (by decide), by decide, h2.trans (by decide)⟩

/-! ## C13: the root-tag check of `validateHTML` -/

theorem count_htmlErrors_root (html m : Str) (h1 : isMissingTag m = false)
    (h2 : isDuplicateId m = false) (h3 : m ≠ "Empty class attribute found".toList)
    (h4 : m ≠ "Empty id attribute found".toList) :
    (htmlErrors html).count m = (rootTagErrors html).count m := by
  have hopen : (openTagErrors html).count m = 0 := by
    apply List.count_eq_zero_of_not_mem
    intro hm
    rw [openTagErrors_eq, List.mem_map] at hm
    obtain ⟨tag, _, rfl⟩ := hm
    rw [isMissingTag_message] at h1
    exact Bool.noConfusion h1
  have hempty : (emptyAttrErrors html).count m = 0 := by
    apply List.count_eq_zero_of_not_mem
    intro hm
    rcases emptyAttrErrors_mem html m hm with h | h
    · exact h3 h
    · exact h4 h
  have hdup : (duplicateIdErrors html).count m = 0 := by
    apply List.count_eq_zero_of_not_mem
    intro hm
    rw [duplicateIdErrors_eq] at hm
    split at hm
    · rw [List.mem_singleton] at hm
      rw [hm, isDuplicateId_message] at h2
      exact Bool.noConfusion h2
    · exact absurd hm (List.not_mem_nil _)
  unfold htmlErrors
  rw [List.count_append, List.count_append, List.count_append, hopen, hempty, hdup]
  rfl

theorem count_root_cases (b1 b2 b3 b4 b5 b6 b7 : Bool) :
    let errors : List Str :=
      if (b1 || b2) = true then
        (if (!b3 && b2) = true then ["Missing closing </html> tag".toList] else []) ++
        (if (!b5 && b4) = true then ["Missing closing </head> tag".toList] else []) ++
        (if (!b7 && b6) = true then ["Missing closing </body> tag".toList] else [])
      else []
    errors.count "Missing closing </html> tag".toList =
        (if ((b1 || b2) && b2 && !b3) = true then 1 else 0) ∧
      errors.count "Missing closing </head> tag".toList =
        (if ((b1 || b2) && b4 && !b5) = true then 1 else 0) ∧
      errors.count "Missing closing </body> tag".toList =
        (if ((b1 || b2) && b6 && !b7) = true then 1 else 0) := by
  cases b1 <;> cases b2 <;> cases b3 <;> cases b4 <;> cases b5 <;> cases b6 <;> cases b7 <;>
    decide

theorem count_rootTagErrors (html : Str) :
    (rootTagErrors html).count (rootMessage "html".toList) =
        (if rootCondition html "html".toList = true then 1 else 0) ∧
      (rootTagErrors html).count (rootMessage "head".toList) =
        (if rootCondition html "head".toList = true then 1 else 0) ∧
      (rootTagErrors html).count (rootMessage "body".toList) =
        (if rootCondition html "body".toList = true then 1 else 0) :=
  count_root_cases (includes html "<!DOCTYPE html>".toList) (includes html "<html>".toList)
    (includes html "</html>".toList) (includes html "<head>".toList)
    (includes html "</head>".toList) (includes html "<body>".toList)
    (includes html "</body>".toList)

/-- C13, as stated, fails: a text with `<!DOCTYPE html>` and an unclosed
`<head>` but no `<html>` tag is reported. -/
theorem rootTagCheck_doctype_counterexample :
    includes "<!DOCTYPE html><head>".toList "<html>".toList = false ∧
      htmlErrors "<!DOCTYPE html><head>".toList =
        ["Missing closing </head> tag".toList, "Missing closing tag for <head>".toList] ∧
      "Missing closing </head> tag".toList ∈ htmlErrors "<!DOCTYPE html><head>".toList := by
  decide

/-- C13, amended. For each of the names html, head and body, `validateHTML`
reports `Missing closing </X> tag` exactly when the text holds
`<!DOCTYPE html>` or `<html>`, holds the opening tag `<X>` and does not hold
`</X>`, and then reports it once; when the text holds neither
`<!DOCTYPE html>` nor `<html>`, none of the three errors is reported. -/
theorem validateHTML_root_tags (html : Str) :
    (htmlErrors html).count (rootMessage "html".toList) =
        (if rootCondition html "html".toList = true then 1 else 0) ∧
      (htmlErrors html).count (rootMessage "head".toList) =
        (if rootCondition html "head".toList = true then 1 else 0) ∧
      (htmlErrors html).count (rootMessage "body".toList) =
        (if rootCondition html "body".toList = true then 1 else 0) ∧
      rootMessage "html".toList = "Missing closing </html> tag".toList ∧
      rootMessage "head".toList = "Missing closing </head> tag".toList ∧
      rootMessage "body".toList = "Missing closing </body> tag".toList := by
  obtain ⟨h1, h2, h3⟩ := count_rootTagErrors html
  refine ⟨?_, ?_, ?_, by decide, by decide, by decide⟩
  · rw [count_htmlErrors_root html _ (by decide) (by decide) (by decide) (by decide)]
    exact h1
  · rw [count_htmlErrors_root html _ (by decide) (by decide) (by decide) (by decide)]
    exact h2
  · rw [count_htmlErrors_root html _ (by decide) (by decide) (by decide) (by decide)]
    exact h3

/-! ## C14: comments and the declaration scan -/

/-- C14. `validateCSS` splits the text at the braces before it strips the
comments of each declaration block, so a comment that holds a brace is cut in
two and not stripped.  On `/* a { b: c } */` it reports a missing semicolon for
`b: c`, which lies inside the comment, while the text without the comment is
empty and yields no error.  On `a { /* } */ color: red }` it reports no
missing semicolon, while the text without the comment, `a {  color: red }`,
yields one for `color: red`: the comment hides the declaration behind it. -/
theorem validateCSS_comment_with_brace :
    cssReport "/* a \x7b b: c \x7d */".toList =
        ["Missing semicolon in declaration: \"b: c\"".toList] ∧
      stripComments 0 "/* a \x7b b: c \x7d */".toList = [] ∧
      cssReport (stripComments 0 "/* a \x7b b: c \x7d */".toList) = [] ∧
      (cssReport "a \x7b /* \x7d */ color: red \x7d".toList).filter isMissingSemicolon = [] ∧
      stripComments 0 "a \x7b /* \x7d */ color: red \x7d".toList =
        "a \x7b  color: red \x7d".toList ∧
      (cssReport (stripComments 0 "a \x7b /* \x7d */ color: red \x7d".toList)).filter
          isMissingSemicolon =
        ["Missing semicolon in declaration: \"color: red\"".toList] := by
  decide

/-! ## C3, continued: the scan and the tag name pinned down -/

theorem matchAll_skip {α : Type} (matchAt : Str → Option (Nat × α)) (b : Str) :
    ∀ a : Str, matchAll matchAt a.length (a ++ b) = matchAll matchAt 0 b
  | [] => rfl
  | x :: xs => by
    rw [List.length_cons, List.cons_append, matchAll]
    exact matchAll_skip matchAt b xs

theorem openTagAt_of_shape (c : Char) (body rest : Str) (hc : c ≠ '/') (hb : '>' ∉ body) :
    openTagAt ('<' :: c :: (body ++ '>' :: rest)) =
      some (('<' :: c :: (body ++ ['>'])).length, '<' :: c :: (body ++ ['>'])) := by
  have hall : ∀ x ∈ body, (x != '>') = true := by
    intro x hx
    rw [bne_iff_ne]
    rintro rfl
    exact hb hx
  have htake : (body ++ '>' :: rest).takeWhile (fun x => x != '>') = body := by
    rw [List.takeWhile_append_of_pos hall]
    simp [List.takeWhile]
  have hdrop : (body ++ '>' :: rest).dropWhile (fun x => x != '>') = '>' :: rest := by
    rw [List.dropWhile_append_of_pos hall]
    simp [List.dropWhile]
  unfold openTagAt
  simp only [hc, if_false, hdrop, htake]

theorem openTags_tag (c : Char) (body rest : Str) (hc : c ≠ '/') (hb : '>' ∉ body) :
    openTags ('<' :: c :: (body ++ '>' :: rest)) =
      ('<' :: c :: (body ++ ['>'])) :: openTags rest := by
  unfold openTags
  rw [matchAll, openTagAt_of_shape c body rest hc hb]
  dsimp only
  have h1 : c :: (body ++ '>' :: rest) = (c :: (body ++ ['>'])) ++ rest := by simp
  have h2 : ('<' :: c :: (body ++ ['>'])).length - 1 = (c :: (body ++ ['>'])).length := by
    simp
  rw [h1, h2, matchAll_skip]

theorem openTagAt_none_of_not_startsTag (s : Str) (h : ¬ StartsTag s) : openTagAt s = none := by
  cases hm : openTagAt s with
  | none => rfl
  | some r =>
    exfalso
    obtain ⟨len, tag⟩ := r
    obtain ⟨⟨rest, hrest⟩, c, body, htag, hc, hb⟩ := openTagAt_shape s tag len hm
    apply h
    refine ⟨c, body, rest, ?_, hc, hb⟩
    rw [← hrest, htag]
    simp

theorem openTags_skip (c : Char) (cs : Str) (h : ¬ StartsTag (c :: cs)) :
    openTags (c :: cs) = openTags cs := by
  unfold openTags
  rw [matchAll, openTagAt_none_of_not_startsTag _ h]

theorem toLowerCase_eq (s : Str) : toLowerCase s = s.map asciiLower := rfl

theorem isWordChar_iff (c : Char) :
    isWordChar c = true ↔
      (97 ≤ c.toNat ∧ c.toNat ≤ 122) ∨ (65 ≤ c.toNat ∧ c.toNat ≤ 90) ∨
        (48 ≤ c.toNat ∧ c.toNat ≤ 57) ∨ c = '_' := by
  unfold isWordChar Char.isAlphanum Char.isAlpha Char.isUpper Char.isLower Char.isDigit
  simp only [Bool.or_eq_true, Bool.and_eq_true, decide_eq_true_eq, ge_iff_le, Char.toNat,
    UInt32.le_def, Fin.le_def]
  constructor
  · rintro (((h | h) | h) | h)
    · exact Or.inr (Or.inl h)
    · exact Or.inl h
    · exact Or.inr (Or.inr (Or.inl h))
    · exact Or.inr (Or.inr (Or.inr h))
  · rintro (h | h | h | h)
    · exact Or.inl (Or.inl (Or.inr h))
    · exact Or.inl (Or.inl (Or.inl h))
    · exact Or.inl (Or.inr h)
    · exact Or.inr h

theorem tagName_nil : tagName [] = none := rfl

theorem tagName_of_name (name rest : Str) (hne : name ≠ [])
    (hword : ∀ c ∈ name, isWordChar c = true)
    (hrest : ∀ c ∈ rest.head?, isWordChar c = false) :
    tagName ('<' :: (name ++ rest)) = some (name.map asciiLower) := by
  have htake : (name ++ rest).takeWhile isWordChar = name := by
    rw [List.takeWhile_append_of_pos hword]
    cases rest with
    | nil => simp
    | cons r rs =>
      have : isWordChar r = false := hrest r (by simp)
      simp [List.takeWhile, this]
  cases name with
  | nil => exact absurd rfl hne
  | cons w ws =>
    unfold tagName
    rw [firstMatch]
    unfold tagNameAt
    simp only [htake, Option.map_some', toLowerCase_eq]

theorem tagName_skip (c : Char) (cs : Str)
    (h : ¬ ∃ w cs2, c :: cs = '<' :: w :: cs2 ∧ isWordChar w = true) :
    tagName (c :: cs) = tagName cs := by
  have hnone : tagNameAt (c :: cs) = none := by
    unfold tagNameAt
    split
    · rename_i rest heq
      split
      · rfl
      · rename_i w ws htw
        exfalso
        cases rest with
        | nil => simp at htw
        | cons r rs =>
          by_cases hr : isWordChar r = true
          · exact h ⟨r, rs, heq, hr⟩
          · simp [List.takeWhile, hr] at htw
    · rfl
  unfold tagName
  rw [firstMatch, hnone]

theorem lacksClosingTag_iff (html tag : Str) :
    lacksClosingTag html tag = true ↔
      ∃ name, tagName tag = some name ∧ name ∉ selfClosingTags ∧
        ¬ "/>".toList <:+ tag ∧ ¬ ("</".toList ++ name ++ ">".toList) <:+: html := by
  unfold lacksClosingTag
  cases hn : tagName tag with
  | none => simp
  | some name =>
    simp only [Bool.and_eq_true, Bool.not_eq_true', Option.some.injEq, exists_eq_left']
    rw [includes_eq_false_iff]
    unfold endsWith
    have hmem : selfClosingTags.contains name = true ↔ name ∈ selfClosingTags := List.elem_iff
    rw [← Bool.not_eq_true, ← Bool.not_eq_true, List.isSuffixOf_iff_suffix, hmem, and_assoc]

theorem missingTag_core (html : Str) :
    (htmlErrors html).filter isMissingTag =
        ((openTags html).filter (lacksClosingTag html)).map
          (fun tag =>
            "Missing closing tag for <".toList ++ (tagName tag).getD [] ++ ">".toList) ∧
      (∀ tag ∈ openTags html, tag <:+: html ∧
        ∃ c body, tag = '<' :: c :: (body ++ ['>']) ∧ c ≠ '/' ∧ '>' ∉ body) ∧
      (openTags html = [] ↔ ∀ t, t <:+ html → openTagAt t = none) := by
  refine ⟨?_, ?_, ?_⟩
  · have hroot : (rootTagErrors html).filter isMissingTag = [] := by
      apply filter_eq_nil_of_forall
      intro e he
      rcases rootTagErrors_mem html e he with rfl | rfl | rfl <;> decide
    have hempty : (emptyAttrErrors html).filter isMissingTag = [] := by
      apply filter_eq_nil_of_forall
      intro e he
      rcases emptyAttrErrors_mem html e he with rfl | rfl <;> decide
    have hdup : (duplicateIdErrors html).filter isMissingTag = [] := by
      apply filter_eq_nil_of_forall
      intro e he
      rw [duplicateIdErrors_eq] at he
      split at he
      · rw [List.mem_singleton.1 he]
        exact isMissingTag_duplicate _
      · exact absurd he (List.not_mem_nil _)
    have hopen : (openTagErrors html).filter isMissingTag = openTagErrors html := by
      apply filter_eq_self_of_forall
      intro e he
      rw [openTagErrors_eq, List.mem_map] at he
      obtain ⟨tag, _, rfl⟩ := he
      exact isMissingTag_message _
    unfold htmlErrors
    rw [List.filter_append, List.filter_append, List.filter_append, hroot, hempty, hdup, hopen,
      List.nil_append, List.append_nil, List.append_nil, openTagErrors_eq]
  · intro tag htag
    obtain ⟨t, len, hsuf, hm⟩ := mem_matchAll openTagAt tag html 0 htag
    obtain ⟨hpre, hshape⟩ := openTagAt_shape t tag len hm
    exact ⟨hpre.isInfix.trans hsuf.isInfix, hshape⟩
  · unfold openTags
    rw [matchAll_eq_nil_iff]
    constructor
    · intro h t hsuf
      by_cases hne : t = []
      · rw [hne]
        rfl
      · exact h t hne hsuf
    · intro h t _ hsuf
      exact h t hsuf

/-- C3. Among the errors `validateHTML` collects, those of the form
`Missing closing tag for <name>` are, in order, one for each opening tag found
by the scan whose lower-cased name is not self-closing, whose text does not end
in `/>`, and whose closing tag `</name>` occurs nowhere in the text, and there
are no others of that form.  Every tag the scan finds is a piece of the text
made of `<`, a character other than `/`, then characters other than `>` up to
the next `>`, and the scan finds none only if no position of the text starts
such a piece.  The check is presence-only: `<div>` gives exactly one error, for
div; `<img src="x">` gives none; a closing tag that comes first, or closing
tags in the wrong nesting order, suppress the error.

The scan, the tag name and the condition are pinned down without reference to
their definitions.  The scan goes from left to right: where a tag starts it
takes the tag up to its first `>` and goes on behind it, elsewhere it steps over
one character; so there is one tag per occurrence and tags do not overlap.  The
tag name is the first run of word characters (letters, digits, `_`) that
directly follows a `<` in the tag, with `A` to `Z` lowered to `a` to `z`.  The
condition is stated with the list relations of suffix and infix and the thirteen
self-closing names.  Upper-case tags are lowered: `<IMG src=x><BR><DIV></div>`
gives no error, `<DIV>` and `<DIV></DIV>` give the error for `div`; two unclosed
tags give two errors in order, also when they are the same tag. -/
theorem validateHTML_missing_closing_tags (html : Str) :
    (htmlErrors html).filter isMissingTag =
        ((openTags html).filter (lacksClosingTag html)).map
          (fun tag =>
            "Missing closing tag for <".toList ++ (tagName tag).getD [] ++ ">".toList) ∧
      (∀ tag ∈ openTags html, tag <:+: html ∧
        ∃ c body, tag = '<' :: c :: (body ++ ['>']) ∧ c ≠ '/' ∧ '>' ∉ body) ∧
      (openTags html = [] ↔ ∀ t, t <:+ html → openTagAt t = none) ∧
      htmlErrors "<div>".toList = ["Missing closing tag for <div>".toList] ∧
      htmlErrors "<img src=\"x\">".toList = [] ∧
      htmlErrors "</div><div>".toList = [] ∧
      htmlErrors "<a><b></a></b>".toList = [] ∧
      ((htmlErrors html).filter isMissingTag).length =
        ((openTags html).filter (lacksClosingTag html)).length ∧
      openTags [] = [] ∧
      (∀ (c : Char) (body rest : Str), c ≠ '/' → '>' ∉ body →
        openTags ('<' :: c :: (body ++ '>' :: rest)) =
          ('<' :: c :: (body ++ ['>'])) :: openTags rest) ∧
      (∀ (c : Char) (cs : Str), ¬ StartsTag (c :: cs) → openTags (c :: cs) = openTags cs) ∧
      tagName [] = none ∧
      (∀ name rest : Str, name ≠ [] → (∀ c ∈ name, isWordChar c = true) →
        (∀ c ∈ rest.head?, isWordChar c = false) →
        tagName ('<' :: (name ++ rest)) = some (name.map asciiLower)) ∧
      (∀ (c : Char) (cs : Str),
        (¬ ∃ w cs2, c :: cs = '<' :: w :: cs2 ∧ isWordChar w = true) →
        tagName (c :: cs) = tagName cs) ∧
      (∀ c : Char, isWordChar c = true ↔
        (97 ≤ c.toNat ∧ c.toNat ≤ 122) ∨ (65 ≤ c.toNat ∧ c.toNat ≤ 90) ∨
          (48 ≤ c.toNat ∧ c.toNat ≤ 57) ∨ c = '_') ∧
      (∀ tag : Str, lacksClosingTag html tag = true ↔
        ∃ name, tagName tag = some name ∧ name ∉ selfClosingTags ∧
          ¬ "/>".toList <:+ tag ∧ ¬ ("</".toList ++ name ++ ">".toList) <:+: html) ∧
      selfClosingTags =
        ["img".toList, "br".toList, "hr".toList, "input".toList, "meta".toList,
         "link".toList, "area".toList, "base".toList, "col".toList, "embed".toList,
         "source".toList, "track".toList, "wbr".toList] ∧
      htmlErrors "<IMG src=x><BR><DIV></div>".toList = [] ∧
      htmlErrors "<DIV>".toList = ["Missing closing tag for <div>".toList] ∧
      htmlErrors "<DIV></DIV>".toList = ["Missing closing tag for <div>".toList] ∧
      htmlErrors "<p><span>".toList =
        ["Missing closing tag for <p>".toList, "Missing closing tag for <span>".toList] ∧
      htmlErrors "<div><div>".toList =
        ["Missing closing tag for <div>".toList, "Missing closing tag for <div>".toList] ∧
      htmlErrors "<br/><x/><Input>".toList = [] := by
  obtain ⟨h1, h2, h3⟩ := missingTag_core html
  refine ⟨h1, h2, h3, by decide, by decide, by decide, by decide, ?_, rfl,
    fun c body rest hc hb => openTags_tag c body rest hc hb,
    fun c cs h => openTags_skip c cs h, tagName_nil,
    fun name rest hne hw hr => tagName_of_name name rest hne hw hr,
    fun c cs h => tagName_skip c cs h, isWordChar_iff,
    fun tag => lacksClosingTag_iff html tag, by decide,
    by decide, by decide, by decide, by decide, by decide, by decide⟩
  rw [h1, List.length_map]

end RunThatCode
